import Mathlib

/-!
# visually/backend: the `/search` proxy of `backend/main.go`

A shallow embedding of `backend/main.go` (package `main`): the CORS middleware
`corsMiddleware` and the handler `searchHandler`, together with the parts of the Go
standard library the two of them call (`strconv.Atoi`, `strconv.Itoa`, `net/url`'s
`Values`, `QueryEscape`, `ParseQuery`, `net/http`'s `Header`, `ResponseWriter`,
`Error`, and the struct-directed part of `encoding/json`).

Go strings are byte sequences, so they are modelled as lists of bytes, never as
Unicode text.
-/

namespace Visually

/-! ## Go strings -/

/-- One byte of a Go string. -/
abbrev Byte := Fin 256

/-- A Go `string` (and a `[]byte`): a finite sequence of bytes. -/
abbrev GoString := List Byte

/-- The byte of an ASCII character. -/
def byteOf (c : Char) : Byte := Fin.ofNat c.toNat

/-- The bytes of a string literal of the source; every literal of `main.go` is ASCII, so
this is its UTF-8 encoding. -/
def ascii (s : String) : GoString := s.toList.map byteOf

/-! ## package strconv -/

/-- The two error kinds of `strconv.NumError`: `strconv.ErrSyntax` and `strconv.ErrRange`. -/
inductive NumErr where
  | ErrSyntax
  | ErrRange
  deriving DecidableEq, Repr

/-- The size in bits of a Go `int` (`strconv.IntSize`) on the 64-bit targets. -/
def intSize : Nat := 64

/-- The body of the digit loop of `strconv.ParseUint` for base 10 and bit size 64:
`n` is the value accumulated so far. The result is the pair `(value, err)` that
`ParseUint` returns. Go's unsigned arithmetic wraps; the two overflow tests of the
source (`n >= cutoff` and `n1 < n || n1 > maxVal`) are exactly the tests that
`n * 10` and `n * 10 + d` leave the range, which is what is written here over `Nat`. -/
def parseUintLoop : GoString → Nat → Nat × Option NumErr
  | [], n => (n, none)
  | c :: rest, n =>
    let lower : Nat := c.val ||| 32
    let digit : Option Nat :=
      if 48 ≤ c.val ∧ c.val ≤ 57 then some (c.val - 48)
      else if 97 ≤ lower ∧ lower ≤ 122 then some (lower - 97 + 10)
      else none
    match digit with
    | none => (0, some .ErrSyntax)
    | some d =>
      if d ≥ 10 then (0, some .ErrSyntax)
      else if n ≥ (2 ^ 64 - 1) / 10 + 1 then (2 ^ 64 - 1, some .ErrRange)
      else if n * 10 + d > 2 ^ 64 - 1 then (2 ^ 64 - 1, some .ErrRange)
      else parseUintLoop rest (n * 10 + d)

/-- The call `strconv.ParseUint(s, 10, 64)`. -/
def ParseUint (s : GoString) : Nat × Option NumErr :=
  if s = [] then (0, some .ErrSyntax) else parseUintLoop s 0

/-- The call `strconv.ParseInt(s, 10, 64)` (also `ParseInt(s, 10, 0)` where `int` has 64 bits). -/
def ParseInt (s : GoString) : Int × Option NumErr :=
  match s with
  | [] => (0, some .ErrSyntax)
  | c :: rest =>
    let neg : Bool := c = byteOf '-'
    let s1 : GoString := if c = byteOf '+' then rest else if c = byteOf '-' then rest else s
    let (un, err) := ParseUint s1
    if err = some .ErrSyntax then (0, err)
    else
      let cutoff : Nat := 2 ^ (intSize - 1)
      if !neg ∧ un ≥ cutoff then ((cutoff : Int) - 1, some .ErrRange)
      else if neg ∧ un > cutoff then (-(cutoff : Int), some .ErrRange)
      else if neg then (-(un : Int), none) else ((un : Int), none)

/-- The digit loop of the fast path of `strconv.Atoi`: `ch -= '0'` is byte arithmetic
(it wraps), and a result above 9 is a syntax error. -/
def atoiFastLoop : GoString → Int → Option Int
  | [], n => some n
  | ch :: rest, n =>
    let d : Byte := ch - byteOf '0'
    if d > 9 then none else atoiFastLoop rest (n * 10 + (d.val : Int))

/-- The function `strconv.Atoi`: the pair `(value, err)`. Strings of 1 to 18 bytes take the
fast path, every other string goes through `ParseInt(s, 10, 0)`. -/
def Atoi (s : GoString) : Int × Option NumErr :=
  if 0 < s.length ∧ s.length < 19 then
    match s with
    | [] => (0, some .ErrSyntax)
    | c :: rest =>
      let s1 : GoString := if c = byteOf '-' ∨ c = byteOf '+' then rest else s
      if s1.length < 1 then (0, some .ErrSyntax)
      else
        match atoiFastLoop s1 0 with
        | none => (0, some .ErrSyntax)
        | some n => if c = byteOf '-' then (-n, none) else (n, none)
  else ParseInt s

/-- The function `strconv.Itoa`: the decimal representation, with a leading `-` for a
negative number. -/
def Itoa (i : Int) : GoString :=
  if i < 0 then byteOf '-' :: (Nat.toDigits 10 i.natAbs).map byteOf
  else (Nat.toDigits 10 i.natAbs).map byteOf

/-! ## package net/url -/

/-- The function `shouldEscape(c, encodeQueryComponent)` of `net/url`: letters, digits and
`-`, `_`, `.`, `~` are kept, every other byte is escaped. -/
def shouldEscape (c : Byte) : Bool :=
  if (97 ≤ c.val ∧ c.val ≤ 122) ∨ (65 ≤ c.val ∧ c.val ≤ 90) ∨ (48 ≤ c.val ∧ c.val ≤ 57) then false
  else if c = byteOf '-' ∨ c = byteOf '_' ∨ c = byteOf '.' ∨ c = byteOf '~' then false
  else true

/-- The table `upperhex` of `net/url`, indexed by a value below 16. -/
def upperhex (n : Nat) : Byte :=
  if n < 10 then Fin.ofNat (48 + n) else Fin.ofNat (65 + (n - 10))

/-- The function `url.QueryEscape`: a space becomes `+`, a byte that must be escaped
becomes `%XX` in upper-case hexadecimal, the rest is copied. -/
def QueryEscape : GoString → GoString
  | [] => []
  | c :: rest =>
    if c = byteOf ' ' then byteOf '+' :: QueryEscape rest
    else if shouldEscape c then
      byteOf '%' :: upperhex (c.val / 16) :: upperhex (c.val % 16) :: QueryEscape rest
    else c :: QueryEscape rest

/-- The function `ishex` of `net/url`. -/
def ishex (c : Byte) : Bool :=
  (48 ≤ c.val ∧ c.val ≤ 57) ∨ (97 ≤ c.val ∧ c.val ≤ 102) ∨ (65 ≤ c.val ∧ c.val ≤ 70)

/-- The function `unhex` of `net/url`. -/
def unhex (c : Byte) : Nat :=
  if 48 ≤ c.val ∧ c.val ≤ 57 then c.val - 48
  else if 97 ≤ c.val ∧ c.val ≤ 102 then c.val - 97 + 10
  else if 65 ≤ c.val ∧ c.val ≤ 70 then c.val - 65 + 10
  else 0

/-- The function `url.QueryUnescape`: `none` is the `EscapeError` returned when a `%` is not
followed by two hexadecimal digits. The source validates the whole string in a first pass
and converts in a second; one pass that fails at the first bad escape returns the same. -/
def QueryUnescape : GoString → Option GoString
  | [] => some []
  | c :: rest =>
    if c = byteOf '%' then
      match rest with
      | h1 :: h2 :: rest2 =>
        if ishex h1 ∧ ishex h2 then
          (QueryUnescape rest2).map (fun t => Fin.ofNat (unhex h1 * 16 + unhex h2) :: t)
        else none
      | _ => none
    else if c = byteOf '+' then (QueryUnescape rest).map (fun t => byteOf ' ' :: t)
    else (QueryUnescape rest).map (fun t => c :: t)

/-- The function `strings.Cut(s, sep)` for a one-byte separator: the text before the first
`sep`, the text after it, and whether `sep` occurs at all (if not, all of `s` and `""`). -/
def Cut (s : GoString) (sep : Byte) : GoString × GoString × Bool :=
  match s with
  | [] => ([], [], false)
  | c :: rest =>
    if c = sep then ([], rest, true)
    else
      let r := Cut rest sep
      (c :: r.1, r.2.1, r.2.2)

/-- A Go `map[string][]string`, the type behind `url.Values` and `http.Header`: an
association list that holds every key at most once. The position of a key in the list is
not observable through the operations below. -/
abbrev StringListMap := List (GoString × List GoString)

/-- The map index expression `m[key]`: the empty (nil) slice when the key is absent. -/
def StringListMap.index (m : StringListMap) (key : GoString) : List GoString :=
  match m with
  | [] => []
  | (k, vs) :: rest => if k = key then vs else StringListMap.index rest key

/-- The map assignment `m[key] = vs`. -/
def StringListMap.assign (m : StringListMap) (key : GoString) (vs : List GoString) :
    StringListMap :=
  match m with
  | [] => [(key, vs)]
  | (k, old) :: rest =>
    if k = key then (k, vs) :: rest else (k, old) :: StringListMap.assign rest key vs

/-- The built-in `delete(m, key)`. -/
def StringListMap.delete (m : StringListMap) (key : GoString) : StringListMap :=
  m.filter (fun kv => kv.1 ≠ key)

/-- The type `url.Values`. -/
abbrev Values := StringListMap

/-- The method `Values.Get`: the first value of the key, `""` when there is none. -/
def Values.Get (v : Values) (key : GoString) : GoString :=
  match StringListMap.index v key with
  | [] => []
  | first :: _ => first

/-- The method `Values.Add`: `v[key] = append(v[key], value)`. -/
def Values.Add (v : Values) (key value : GoString) : Values :=
  StringListMap.assign v key (StringListMap.index v key ++ [value])

/-- Go's `<=` on strings: the lexicographic order of the bytes. -/
def strLe : GoString → GoString → Bool
  | [], _ => true
  | _ :: _, [] => false
  | a :: as, b :: bs => if a.val < b.val then true else if b.val < a.val then false else strLe as bs

/-- Insertion of one key into a sorted list of keys. -/
def insertSorted (k : GoString) : List GoString → List GoString
  | [] => [k]
  | x :: xs => if strLe k x then k :: x :: xs else x :: insertSorted k xs

/-- The call `slices.Sort(keys)`: the keys in increasing order. -/
def sortStrings : List GoString → List GoString
  | [] => []
  | k :: ks => insertSorted k (sortStrings ks)

/-- The inner loop of `Values.Encode`, over the values of one key: each value is appended
to the buffer as `key=value`, after a `&` when the buffer is not empty. -/
def encodeValues (keyEscaped : GoString) : List GoString → GoString → GoString
  | [], buf => buf
  | v :: vs, buf =>
    let buf1 := if buf.length > 0 then buf ++ [byteOf '&'] else buf
    encodeValues keyEscaped vs (buf1 ++ keyEscaped ++ [byteOf '='] ++ QueryEscape v)

/-- The outer loop of `Values.Encode`, over the sorted keys. -/
def encodeKeys (v : Values) : List GoString → GoString → GoString
  | [], buf => buf
  | k :: ks, buf => encodeKeys v ks (encodeValues (QueryEscape k) (StringListMap.index v k) buf)

/-- The method `Values.Encode`: the URL-encoded form `bar=baz&foo=quux`, sorted by key. -/
def Values.Encode (v : Values) : GoString :=
  if v.length = 0 then [] else encodeKeys v (sortStrings (v.map Prod.fst)) []

/-- The errors of `url.ParseQuery`. -/
inductive QueryErr where
  | invalidSemicolon
  | escapeError
  deriving DecidableEq, Repr

/-- The loop `for query != ""` of `parseQuery` in `net/url`; `fuel` bounds the number of
iterations, and each iteration removes at least one byte of `query`. -/
def parseQueryLoop : Nat → Values → Option QueryErr → GoString → Values × Option QueryErr
  | 0, m, err, _ => (m, err)
  | fuel + 1, m, err, query =>
    if query = [] then (m, err)
    else
      let c := Cut query (byteOf '&')
      let key := c.1
      let query1 := c.2.1
      if byteOf ';' ∈ key then parseQueryLoop fuel m (some .invalidSemicolon) query1
      else if key = [] then parseQueryLoop fuel m err query1
      else
        let kv := Cut key (byteOf '=')
        match QueryUnescape kv.1 with
        | none => parseQueryLoop fuel m (if err = none then some .escapeError else err) query1
        | some key1 =>
          match QueryUnescape kv.2.1 with
          | none => parseQueryLoop fuel m (if err = none then some .escapeError else err) query1
          | some value1 => parseQueryLoop fuel (Values.Add m key1 value1) err query1

/-- The function `url.ParseQuery`: the values found, and the first error met (a value is
returned in both cases). -/
def ParseQuery (query : GoString) : Values × Option QueryErr :=
  parseQueryLoop (query.length + 1) [] none query

/-- The query component of an absolute URL as `url.Parse` splits it off (`URL.RawQuery`):
the fragment is cut at the first `#`, then the query is what follows the first `?`. -/
def rawQueryOf (rawURL : GoString) : GoString :=
  (Cut (Cut rawURL (byteOf '#')).1 (byteOf '?')).2.1

/-! ## package encoding/json

The JSON text layer (the scanner that checks and tokenises the input, the writer that
renders a value as text, and the conversion between number literals and `float64`) belongs
to the library and is supplied by the `World` below. What is modelled here is the part that
the declaration of `TypesenseSearchResponse` in `main.go` drives: which members of the
input reach which field, and which members the output has. -/

/-- A JSON document as the scanner of `encoding/json` delivers it: strings and member names
unquoted, numbers as their literal text, the members of an object in the order of the text
(a name may occur more than once). -/
inductive JSON where
  | null
  | bool (b : Bool)
  | number (lit : GoString)
  | string (s : GoString)
  | array (elems : List JSON)
  | object (members : List (GoString × JSON))

/-- The Go values that `encoding/json` stores in an `interface{}`: `nil`, `bool`, `float64`
(a finite value, given by its IEEE 754 bits), `string`, `[]interface{}` and
`map[string]interface{}` (each key once). -/
inductive GoAny where
  | nil
  | bool (b : Bool)
  | float64 (bits : Nat)
  | string (s : GoString)
  | slice (elems : List GoAny)
  | map (entries : List (GoString × GoAny))

/-- A non-nil `map[string]interface{}`. -/
abbrev GoMap := List (GoString × GoAny)

/-- The map assignment `m[key] = value`. -/
def GoMap.assign (m : GoMap) (key : GoString) (value : GoAny) : GoMap :=
  match m with
  | [] => [(key, value)]
  | (k, old) :: rest =>
    if k = key then (k, value) :: rest else (k, old) :: GoMap.assign rest key value

/-- One element of `Hits`: the anonymous struct with the fields `Document`
(`json:"document"`), `Highlight` (`json:"highlight,omitempty"`) and `TextMatch`
(`json:"text_match,omitempty"`). A map field is `none` when it is nil. -/
structure Hit where
  Document : Option GoMap
  Highlight : Option GoMap
  TextMatch : Nat

/-- The zero value of the element struct of `Hits`. -/
def Hit.zero : Hit := { Document := none, Highlight := none, TextMatch := 0 }

/-- A non-nil slice of hits: its length and the elements of its backing array that were
ever written (`len ≤ backing.length`; the array holds zero values beyond). The slice itself
is `backing.take len`; what lies behind `len` matters only to `json.Unmarshal`, which
decodes into the old element when it lengthens a slice again. -/
structure HitSlice where
  len : Nat
  backing : List Hit

/-- The struct `TypesenseSearchResponse` of `main.go`; a slice or map field is `none` when
it is nil. -/
structure TypesenseSearchResponse where
  FacetCounts : Option (List GoAny)
  Found : Int
  Hits : Option HitSlice
  OutOf : Int
  Page : Int
  RequestParams : Option GoMap
  SearchTimeMs : Int

/-- The zero value `var tsResponse TypesenseSearchResponse`. -/
def TypesenseSearchResponse.zero : TypesenseSearchResponse :=
  { FacetCounts := none, Found := 0, Hits := none, OutOf := 0, Page := 0,
    RequestParams := none, SearchTimeMs := 0 }

/-- The fields of `TypesenseSearchResponse`, in the order of the declaration. -/
inductive ResponseField where
  | FacetCounts | Found | Hits | OutOf | Page | RequestParams | SearchTimeMs
  deriving DecidableEq, Repr

/-- The `json:"..."` name of a field of `TypesenseSearchResponse`. -/
def ResponseField.tag : ResponseField → GoString
  | .FacetCounts => ascii "facet_counts"
  | .Found => ascii "found"
  | .Hits => ascii "hits"
  | .OutOf => ascii "out_of"
  | .Page => ascii "page"
  | .RequestParams => ascii "request_params"
  | .SearchTimeMs => ascii "search_time_ms"

/-- The list of the fields of `TypesenseSearchResponse`. -/
def responseFields : List ResponseField :=
  [.FacetCounts, .Found, .Hits, .OutOf, .Page, .RequestParams, .SearchTimeMs]

/-- The fields of an element of `Hits`. -/
inductive HitField where
  | Document | Highlight | TextMatch
  deriving DecidableEq, Repr

/-- The `json:"..."` name of a field of an element of `Hits`. -/
def HitField.tag : HitField → GoString
  | .Document => ascii "document"
  | .Highlight => ascii "highlight"
  | .TextMatch => ascii "text_match"

/-- The list of the fields of an element of `Hits`. -/
def hitFields : List HitField := [.Document, .Highlight, .TextMatch]

/-- Upper case of an ASCII letter, any other byte unchanged. -/
def upperASCII (c : Byte) : Byte := if 97 ≤ c.val ∧ c.val ≤ 122 then c - 32 else c

/-- Whether a member name of the input equals the ASCII field name `name` under Unicode
simple case folding (`bytes.EqualFold`), the test `encoding/json` falls back to when no
field has exactly the member name: ASCII letters match without regard to case, U+017F
(bytes C5 BF) matches `s`, U+212A (bytes E2 84 AA) matches `k`. -/
def equalFoldName : GoString → GoString → Bool
  | [], [] => true
  | [], _ :: _ => false
  | _ :: _, [] => false
  | n :: ns, c :: cs =>
    if c.val < 128 then decide (upperASCII n = upperASCII c) && equalFoldName ns cs
    else if upperASCII n = byteOf 'S' then
      match c :: cs with
      | 0xC5 :: 0xBF :: cs1 => equalFoldName ns cs1
      | _ => false
    else if upperASCII n = byteOf 'K' then
      match c :: cs with
      | 0xE2 :: 0x84 :: 0xAA :: cs1 => equalFoldName ns cs1
      | _ => false
    else false

/-- The field of a struct that a member of the input goes to: the field with exactly that
name, else the first field whose name matches under case folding, else none (the member
is skipped). -/
def findField {α : Type} (fields : List α) (tag : α → GoString) (key : GoString) : Option α :=
  match fields.find? (fun f => decide (tag f = key)) with
  | some f => some f
  | none => fields.find? (fun f => equalFoldName (tag f) key)

/-! ## What the handler is given from outside -/

/-- The text of a Go `error` (`err.Error()`). -/
abbrev GoError := GoString

/-- The outgoing request of `searchHandler`: always a `GET`, to `URL`, whose only header is
`X-Typesense-Api-Key`. -/
structure UpstreamCall where
  URL : GoString
  APIKey : GoString
  deriving DecidableEq

/-- What `httpClient.Do(req)` returns: a transport error, or a response with its status
code and the outcome of `ioutil.ReadAll(resp.Body)` (the body, or a read error). -/
inductive DoResult where
  | transportError (err : GoError)
  | response (StatusCode : Int) (body : Except GoError GoString)

/-- Everything outside `main.go` that the run of a handler depends on and that is not
computed here: whether `http.NewRequest` accepts the URL, the search service behind
`httpClient`, and the text layer of `encoding/json`. The properties below hold for every
such world. -/
structure World where
  /-- The error of `http.NewRequest("GET", url, nil)`, `none` when it succeeds. -/
  NewRequestErr : GoString → Option GoError
  /-- The result of `httpClient.Do` on the request. -/
  Do : UpstreamCall → DoResult
  /-- The scanner of `encoding/json`: the document, or `none` for a syntax error. -/
  scanJSON : GoString → Option JSON
  /-- The writer of `encoding/json`: the compact text of a document. -/
  textJSON : JSON → GoString
  /-- The call `strconv.ParseFloat(lit, 64)` on a number literal: the bits of the finite
  result, `none` when the literal is out of range. -/
  parseFloat : GoString → Option Nat
  /-- The text `encoding/json` writes for a finite `float64`. -/
  formatFloat : Nat → GoString
  /-- Whether `omitempty` drops a negative zero (`v == 0`) or only the value whose bits
  are all zero; releases of the library differ. -/
  omitNegativeZero : Bool

/-! ### json.Unmarshal into `TypesenseSearchResponse` -/

mutual
/-- Decoding of a JSON value into a fresh `interface{}`; `none` is an
`UnmarshalTypeError` (a number outside `float64`). -/
def decodeAny (env : World) : JSON → Option GoAny
  | .null => some .nil
  | .bool b => some (.bool b)
  | .number lit => (env.parseFloat lit).map GoAny.float64
  | .string s => some (.string s)
  | .array elems => (decodeAnyList env elems).map GoAny.slice
  | .object members => (decodeAnyMembers env members []).map GoAny.map
/-- Decoding of the elements of an array into a `[]interface{}`. -/
def decodeAnyList (env : World) : List JSON → Option (List GoAny)
  | [] => some []
  | x :: xs =>
    match decodeAny env x, decodeAnyList env xs with
    | some a, some rest => some (a :: rest)
    | _, _ => none
/-- Decoding of the members of an object into the map `m`, one assignment `m[key] = value`
per member, in the order of the text. -/
def decodeAnyMembers (env : World) : List (GoString × JSON) → GoMap → Option GoMap
  | [], m => some m
  | (key, x) :: rest, m =>
    match decodeAny env x with
    | some a => decodeAnyMembers env rest (GoMap.assign m key a)
    | none => none
end

/-- Decoding into a field of type `map[string]interface{}` that holds `old`: `null` sets it
to nil, an object is added to the map that is there (a new one if it is nil), anything else
is an `UnmarshalTypeError`. -/
def decodeMapField (env : World) (old : Option GoMap) : JSON → Option (Option GoMap)
  | .null => some none
  | .object members => (decodeAnyMembers env members (old.getD [])).map some
  | _ => none

/-- Decoding into a field of type `[]interface{}`: `null` sets it to nil, an array replaces
every element, anything else is an `UnmarshalTypeError`. -/
def decodeAnySliceField (env : World) : JSON → Option (Option (List GoAny))
  | .null => some none
  | .array elems => (decodeAnyList env elems).map some
  | _ => none

/-- Decoding into a field of type `int` that holds `old`: `null` leaves it, a number is
read by `strconv.ParseInt(lit, 10, 64)`, anything else is an `UnmarshalTypeError`. -/
def decodeIntField (old : Int) : JSON → Option Int
  | .null => some old
  | .number lit =>
    match ParseInt lit with
    | (n, none) => some n
    | (_, some _) => none
  | _ => none

/-- Decoding into a field of type `float64` that holds `old`. -/
def decodeFloatField (env : World) (old : Nat) : JSON → Option Nat
  | .null => some old
  | .number lit => env.parseFloat lit
  | _ => none

/-- Decoding of one member of an object into the element struct `h` of `Hits`. -/
def decodeHitMember (env : World) (h : Hit) (key : GoString) (x : JSON) : Option Hit :=
  match findField hitFields HitField.tag key with
  | none => some h
  | some .Document => (decodeMapField env h.Document x).map (fun m => { h with Document := m })
  | some .Highlight => (decodeMapField env h.Highlight x).map (fun m => { h with Highlight := m })
  | some .TextMatch => (decodeFloatField env h.TextMatch x).map (fun f => { h with TextMatch := f })

/-- Decoding of the members of an object into the element struct `h`, in the order of the
text. -/
def decodeHitMembers (env : World) : List (GoString × JSON) → Hit → Option Hit
  | [], h => some h
  | (key, x) :: rest, h =>
    match decodeHitMember env h key x with
    | some h1 => decodeHitMembers env rest h1
    | none => none

/-- Decoding into an element of `Hits` that holds `old`: `null` leaves it, an object sets
the fields it names, anything else is an `UnmarshalTypeError`. -/
def decodeHit (env : World) (old : Hit) : JSON → Option Hit
  | .null => some old
  | .object members => decodeHitMembers env members old
  | _ => none

/-- The element loop of the array decoder on `Hits`: element `i` of the input is decoded
into element `i` of the backing array (the zero value where nothing was written); what is
left of the backing array stays behind the new length. -/
def decodeHitElems (env : World) : List JSON → List Hit → Option (List Hit)
  | [], old => some old
  | x :: xs, old =>
    match decodeHit env (old.headD Hit.zero) x, decodeHitElems env xs old.tail with
    | some h, some rest => some (h :: rest)
    | _, _ => none

/-- Decoding into the field `Hits`, which holds `old`: `null` sets it to nil, `[]` to a new
empty slice, a longer array decodes into the elements that are there. -/
def decodeHitsField (env : World) (old : Option HitSlice) : JSON → Option (Option HitSlice)
  | .null => some none
  | .array elems =>
    if elems.length = 0 then some (some { len := 0, backing := [] })
    else
      let backing : List Hit := match old with
        | none => []
        | some s => s.backing
      (decodeHitElems env elems backing).map (fun b => some { len := elems.length, backing := b })
  | _ => none

/-- Decoding of one member of the top-level object into `t`. -/
def decodeResponseMember (env : World) (t : TypesenseSearchResponse) (key : GoString) (x : JSON) :
    Option TypesenseSearchResponse :=
  match findField responseFields ResponseField.tag key with
  | none => some t
  | some .FacetCounts => (decodeAnySliceField env x).map (fun v => { t with FacetCounts := v })
  | some .Found => (decodeIntField t.Found x).map (fun v => { t with Found := v })
  | some .Hits => (decodeHitsField env t.Hits x).map (fun v => { t with Hits := v })
  | some .OutOf => (decodeIntField t.OutOf x).map (fun v => { t with OutOf := v })
  | some .Page => (decodeIntField t.Page x).map (fun v => { t with Page := v })
  | some .RequestParams =>
    (decodeMapField env t.RequestParams x).map (fun v => { t with RequestParams := v })
  | some .SearchTimeMs => (decodeIntField t.SearchTimeMs x).map (fun v => { t with SearchTimeMs := v })

/-- Decoding of the members of the top-level object, in the order of the text. -/
def decodeResponseMembers (env : World) :
    List (GoString × JSON) → TypesenseSearchResponse → Option TypesenseSearchResponse
  | [], t => some t
  | (key, x) :: rest, t =>
    match decodeResponseMember env t key x with
    | some t1 => decodeResponseMembers env rest t1
    | none => none

/-- Decoding of a document into `t`: `null` leaves the struct as it is, an object sets the
fields it names, anything else is an `UnmarshalTypeError`. -/
def decodeResponse (env : World) (t : TypesenseSearchResponse) : JSON → Option TypesenseSearchResponse
  | .null => some t
  | .object members => decodeResponseMembers env members t
  | _ => none

/-- The two errors of `json.Unmarshal`. -/
inductive JsonErr where
  | SyntaxError
  | UnmarshalTypeError
  deriving DecidableEq, Repr

/-- The call `json.Unmarshal(body, &tsResponse)` on the zero value of `tsResponse`. Since
the handler drops `tsResponse` when an error is returned, the partly filled struct of the
error case is not kept. -/
def Unmarshal (env : World) (body : GoString) : Except JsonErr TypesenseSearchResponse :=
  match env.scanJSON body with
  | none => .error .SyntaxError
  | some doc =>
    match decodeResponse env TypesenseSearchResponse.zero doc with
    | none => .error .UnmarshalTypeError
    | some t => .ok t

/-! ### json.Encoder.Encode of `TypesenseSearchResponse` -/

/-- Insertion of one member into a list of members sorted by name. -/
def insertMember (kv : GoString × JSON) : List (GoString × JSON) → List (GoString × JSON)
  | [] => [kv]
  | x :: xs => if strLe kv.1 x.1 then kv :: x :: xs else x :: insertMember kv xs

/-- The members of a map in the order the encoder writes them: sorted by key. -/
def sortMembers : List (GoString × JSON) → List (GoString × JSON)
  | [] => []
  | kv :: rest => insertMember kv (sortMembers rest)

mutual
/-- The JSON document the encoder writes for a value held in an `interface{}`. -/
def encodeAny (env : World) : GoAny → JSON
  | .nil => .null
  | .bool b => .bool b
  | .float64 bits => .number (env.formatFloat bits)
  | .string s => .string s
  | .slice elems => .array (encodeAnyList env elems)
  | .map entries => .object (sortMembers (encodeAnyEntries env entries))
/-- The documents of the elements of a `[]interface{}`. -/
def encodeAnyList (env : World) : List GoAny → List JSON
  | [] => []
  | x :: xs => encodeAny env x :: encodeAnyList env xs
/-- The members of the entries of a `map[string]interface{}`, not yet sorted. -/
def encodeAnyEntries (env : World) : List (GoString × GoAny) → List (GoString × JSON)
  | [] => []
  | (k, x) :: rest => (k, encodeAny env x) :: encodeAnyEntries env rest
end

/-- The document of a field of type `map[string]interface{}`: `null` for a nil map. -/
def encodeMapField (env : World) : Option GoMap → JSON
  | none => .null
  | some m => .object (sortMembers (encodeAnyEntries env m))

/-- The test `isEmptyValue` of `encoding/json` on a map: its length is 0. -/
def isEmptyMap : Option GoMap → Bool
  | none => true
  | some m => m.length = 0

/-- The test `isEmptyValue` of `encoding/json` on a `float64` given by its bits. -/
def isEmptyFloat (env : World) (bits : Nat) : Bool :=
  bits = 0 || (env.omitNegativeZero && bits = 2 ^ 63)

/-- The document of one element of `Hits`: `document` always, `highlight` and `text_match`
unless empty (`omitempty`). -/
def encodeHit (env : World) (h : Hit) : JSON :=
  .object
    ([(ascii "document", encodeMapField env h.Document)]
      ++ (if isEmptyMap h.Highlight then [] else [(ascii "highlight", encodeMapField env h.Highlight)])
      ++ (if isEmptyFloat env h.TextMatch then []
          else [(ascii "text_match", JSON.number (env.formatFloat h.TextMatch))]))

/-- The document of the field `Hits`: `null` for a nil slice. -/
def encodeHitsField (env : World) : Option HitSlice → JSON
  | none => .null
  | some s => .array ((s.backing.take s.len).map (encodeHit env))

/-- The document of the field `FacetCounts`: `null` for a nil slice. -/
def encodeAnySliceField (env : World) : Option (List GoAny) → JSON
  | none => .null
  | some elems => .array (encodeAnyList env elems)

/-- The document `json.Encoder.Encode` writes for a `TypesenseSearchResponse`: the seven
fields in the order of the declaration, none of them with `omitempty`. -/
def encodeResponse (env : World) (t : TypesenseSearchResponse) : JSON :=
  .object
    [ (ascii "facet_counts", encodeAnySliceField env t.FacetCounts),
      (ascii "found", .number (Itoa t.Found)),
      (ascii "hits", encodeHitsField env t.Hits),
      (ascii "out_of", .number (Itoa t.OutOf)),
      (ascii "page", .number (Itoa t.Page)),
      (ascii "request_params", encodeMapField env t.RequestParams),
      (ascii "search_time_ms", .number (Itoa t.SearchTimeMs)) ]

/-! ## package net/http -/

/-- The type `http.Header`. The keys that `main.go` uses are written in canonical form
already, so `Set` and `Del` find them as they are. -/
abbrev Header := StringListMap

/-- The method `Header.Set`: the key gets the single value. -/
def Header.Set (h : Header) (key value : GoString) : Header :=
  StringListMap.assign h key [value]

/-- The method `Header.Del`. -/
def Header.Del (h : Header) (key : GoString) : Header :=
  StringListMap.delete h key

/-- The method `Header.Get`: the first value of the key, `""` when there is none. -/
def Header.Get (h : Header) (key : GoString) : GoString :=
  match StringListMap.index h key with
  | [] => []
  | first :: _ => first

/-- The constant `http.StatusOK`. -/
def StatusOK : Int := 200

/-- The constant `http.StatusBadRequest`. -/
def StatusBadRequest : Int := 400

/-- The constant `http.StatusInternalServerError`. -/
def StatusInternalServerError : Int := 500

/-- The constant `http.StatusServiceUnavailable`. -/
def StatusServiceUnavailable : Int := 503

/-- The test of `checkWriteHeaderCode` in `net/http`: `WriteHeader` panics with
`invalid WriteHeader code` unless the code has three digits. -/
def validStatusCode (code : Int) : Bool := decide (100 ≤ code ∧ code ≤ 999)

/-- The function `bodyAllowedForStatus` of `net/http`: a response with a status of 1xx, 204
or 304 has no body. -/
def bodyAllowedForStatus (status : Int) : Bool :=
  if 100 ≤ status ∧ status ≤ 199 then false
  else if status = 204 then false
  else if status = 304 then false
  else true

/-- The state behind the `http.ResponseWriter` of the server: the header map that `Header()`
returns, whether the status line was written, and if so the status code and the headers that
went out with it, the body written so far, and whether a call on the writer panicked (the
server then drops the connection and the client gets no response). -/
structure ResponseWriter where
  header : Header
  wroteHeader : Bool
  status : Int
  sentHeader : Header
  body : GoString
  panicked : Bool

/-- The writer at the start of a request: nothing set, nothing written. -/
def ResponseWriter.new : ResponseWriter :=
  { header := [], wroteHeader := false, status := 0, sentHeader := [], body := [],
    panicked := false }

/-- The method `WriteHeader`: a call after the first changes nothing; the first call panics
when the code is not a three-digit number, and else fixes the status code and sends the
headers as they are at that moment. -/
def ResponseWriter.WriteHeader (w : ResponseWriter) (statusCode : Int) : ResponseWriter :=
  if w.wroteHeader then w
  else if validStatusCode statusCode then
    { w with wroteHeader := true, status := statusCode, sentHeader := w.header }
  else { w with panicked := true }

/-- The method `Write`: calls `WriteHeader(http.StatusOK)` first when no status was written;
the data is dropped (`http.ErrBodyNotAllowed`) when the status admits no body. -/
def ResponseWriter.Write (w : ResponseWriter) (data : GoString) : ResponseWriter :=
  let w1 := if w.wroteHeader then w else ResponseWriter.WriteHeader w StatusOK
  if bodyAllowedForStatus w1.status then { w1 with body := w1.body ++ data } else w1

/-- The function `http.Error`: drops `Content-Length`, sets `Content-Type` and
`X-Content-Type-Options`, writes the status code, then the message and a newline
(`fmt.Fprintln`). When `WriteHeader` panics, the panic leaves `http.Error` and the handler,
and the message is not written. -/
def Error (w : ResponseWriter) (error : GoString) (code : Int) : ResponseWriter :=
  let h := Header.Del w.header (ascii "Content-Length")
  let h := Header.Set h (ascii "Content-Type") (ascii "text/plain; charset=utf-8")
  let h := Header.Set h (ascii "X-Content-Type-Options") (ascii "nosniff")
  let w1 : ResponseWriter := { w with header := h }
  let w2 := ResponseWriter.WriteHeader w1 code
  if !w1.wroteHeader && !validStatusCode code then w2
  else ResponseWriter.Write w2 (error ++ [byteOf '\n'])

/-- What the client receives once the handler has returned without a panic: status code,
headers and body. A handler that never wrote a status gets `200` and the headers as they are
at the end. -/
structure Response where
  status : Int
  header : Header
  body : GoString

/-- The response that a writer stands for when the handler returns; it is sent unless the
writer panicked. -/
def ResponseWriter.response (w : ResponseWriter) : Response :=
  if w.wroteHeader then { status := w.status, header := w.sentHeader, body := w.body }
  else { status := StatusOK, header := w.header, body := w.body }

/-- The part of an `*http.Request` that `main.go` reads: the method and the URL, the latter
as path and raw query. -/
structure Request where
  Method : GoString
  Path : GoString
  RawQuery : GoString

/-- The method `r.URL.Query()`: the values of `ParseQuery`, malformed pairs dropped and the
error ignored. -/
def Request.Query (r : Request) : Values := (ParseQuery r.RawQuery).1

/-! ## package main -/

/-- The struct `TypesenseConfig`. -/
structure TypesenseConfig where
  Host : GoString
  Port : GoString
  APIKey : GoString
  Collection : GoString
  SearchByFields : GoString

/-- The check of `init`: `log.Fatalf` ends the process unless host, port, API key and
collection are all non-empty. -/
def TypesenseConfig.valid (c : TypesenseConfig) : Prop :=
  c.Host ≠ [] ∧ c.Port ≠ [] ∧ c.APIKey ≠ [] ∧ c.Collection ≠ []

/-- One call of `log.Printf` in `searchHandler`, by call site, with its arguments. -/
inductive LogLine where
  /-- The line `Making Typesense request to: %s`. -/
  | makingRequest (fullURL : GoString)
  /-- The line `Error creating Typesense request: %v`. -/
  | errorCreatingRequest (err : GoError)
  /-- The line `Error making Typesense HTTP request: %v`. -/
  | errorMakingRequest (err : GoError)
  /-- The line `Error reading Typesense response body: %v`. -/
  | errorReadingBody (err : GoError)
  /-- The line `Typesense API returned non-200 status: %d - %s`. -/
  | non200Status (StatusCode : Int) (body : GoString)
  /-- The line `Error unmarshaling Typesense response: %v`. -/
  | errorUnmarshaling (err : JsonErr)

/-- Everything a handler can change while it serves one request: the response writer, the
lines logged, and the requests sent to the search service (oldest first). -/
structure Exchange where
  w : ResponseWriter
  log : List LogLine
  calls : List UpstreamCall

/-- The exchange at the start of a request. -/
def Exchange.new : Exchange := { w := ResponseWriter.new, log := [], calls := [] }

/-- An `http.Handler`: `ServeHTTP(w, r)` as a function of the exchange so far. -/
abbrev Handler := Exchange → Request → Exchange

/-- The function `corsMiddleware` (`main.go`, lines 66 to 85). -/
def corsMiddleware (next : Handler) : Handler := fun x r =>
  let h := Header.Set x.w.header (ascii "Access-Control-Allow-Origin") (ascii "http://localhost:3000")
  let h := Header.Set h (ascii "Access-Control-Allow-Methods") (ascii "GET, POST, OPTIONS")
  let h := Header.Set h (ascii "Access-Control-Allow-Headers") (ascii "Content-Type, X-Typesense-Api-Key")
  let h := Header.Set h (ascii "Access-Control-Max-Age") (ascii "86400")
  let x := { x with w := { x.w with header := h } }
  if r.Method = ascii "OPTIONS" then
    { x with w := ResponseWriter.WriteHeader x.w StatusOK }
  else
    next x r

/-- The value of the variable `page` after lines 96 to 100. -/
def effectivePage (r : Request) : Int :=
  let pageStr := Values.Get (Request.Query r) (ascii "page")
  let (page, err) := Atoi pageStr
  if err ≠ none ∨ page < 1 then 1 else page

/-- The value of the variable `pageSize` after lines 102 to 106. -/
def effectivePageSize (r : Request) : Int :=
  let pageSizeStr := Values.Get (Request.Query r) (ascii "pageSize")
  let (pageSize, err) := Atoi pageSizeStr
  if err ≠ none ∨ pageSize < 1 ∨ pageSize > 250 then 10 else pageSize

/-- The value of the variable `typesenseURL` (lines 109 and 110). -/
def typesenseURL (tsConfig : TypesenseConfig) : GoString :=
  ascii "http://" ++ tsConfig.Host ++ ascii ":" ++ tsConfig.Port ++ ascii "/collections/"
    ++ tsConfig.Collection ++ ascii "/documents/search"

/-- The value of the variable `params` after lines 112 to 118, for the query `query`. -/
def searchParams (tsConfig : TypesenseConfig) (r : Request) (query : GoString) : Values :=
  let params : Values := []
  let params := Values.Add params (ascii "q") query
  let params := Values.Add params (ascii "per_page") (Itoa (effectivePageSize r))
  let params := Values.Add params (ascii "page") (Itoa (effectivePage r))
  if tsConfig.SearchByFields ≠ [] then
    Values.Add params (ascii "query_by") tsConfig.SearchByFields
  else params

/-- The value of the variable `fullURL` (line 120). -/
def fullURL (tsConfig : TypesenseConfig) (r : Request) : GoString :=
  typesenseURL tsConfig ++ ascii "?"
    ++ Values.Encode (searchParams tsConfig r (Values.Get (Request.Query r) (ascii "q")))

/-- The function `searchHandler` (`main.go`, lines 88 to 169), for the configuration
`tsConfig` in the world `env`. -/
def searchHandler (env : World) (tsConfig : TypesenseConfig) : Handler := fun x r =>
  let query := Values.Get (Request.Query r) (ascii "q")
  if query = [] then
    { x with w := Error x.w (ascii "Query parameter 'q' is required.") StatusBadRequest }
  else
    let fullURL := fullURL tsConfig r
    let x := { x with log := x.log ++ [LogLine.makingRequest fullURL] }
    match env.NewRequestErr fullURL with
    | some err =>
      { x with
        log := x.log ++ [LogLine.errorCreatingRequest err],
        w := Error x.w (ascii "Internal server error.") StatusInternalServerError }
    | none =>
      let req : UpstreamCall := { URL := fullURL, APIKey := tsConfig.APIKey }
      let x := { x with calls := x.calls ++ [req] }
      match env.Do req with
      | .transportError err =>
        { x with
          log := x.log ++ [LogLine.errorMakingRequest err],
          w := Error x.w (ascii "Failed to connect to search service.") StatusServiceUnavailable }
      | .response _ (.error err) =>
        { x with
          log := x.log ++ [LogLine.errorReadingBody err],
          w := Error x.w (ascii "Internal server error.") StatusInternalServerError }
      | .response StatusCode (.ok body) =>
        if StatusCode ≠ StatusOK then
          { x with
            log := x.log ++ [LogLine.non200Status StatusCode body],
            w := Error x.w (ascii "Typesense search failed: " ++ body) StatusCode }
        else
          match Unmarshal env body with
          | .error err =>
            { x with
              log := x.log ++ [LogLine.errorUnmarshaling err],
              w := Error x.w (ascii "Error parsing search results.") StatusInternalServerError }
          | .ok tsResponse =>
            let w := { x.w with header := Header.Set x.w.header (ascii "Content-Type") (ascii "application/json") }
            let w := ResponseWriter.WriteHeader w StatusOK
            let w := ResponseWriter.Write w (env.textJSON (encodeResponse env tsResponse) ++ [byteOf '\n'])
            { x with w := w }

/-- The handler that `main` serves, with the search handler in the place of the router:
`corsMiddleware` around `searchHandler`. -/
def server (env : World) (tsConfig : TypesenseConfig) : Handler :=
  corsMiddleware (searchHandler env tsConfig)

/-! ## The words of the specification -/

/-- Whether a byte is one of the decimal digits `0` to `9`. -/
def isDigit (c : Byte) : Bool := decide (48 ≤ c.val ∧ c.val ≤ 57)

/-- The number that a sequence of decimal digits denotes, continuing from `n`. -/
def digitsValueFrom (n : Nat) (ds : GoString) : Nat :=
  ds.foldl (fun acc c => acc * 10 + (c.val - 48)) n

/-- The specification's reading of a parameter as an integer: an optional sign, then one or
more decimal digits, denoting a number in the range of a 64-bit `int`; `none` for every
other string (the empty one, which `Get` returns for an absent parameter, included). -/
def decimalInt (s : GoString) : Option Int :=
  match s with
  | [] => none
  | c :: rest =>
    let ds : GoString := if c = byteOf '-' ∨ c = byteOf '+' then rest else s
    if ds ≠ [] ∧ ds.all isDigit then
      let v : Int := if c = byteOf '-' then -(digitsValueFrom 0 ds : Int) else (digitsValueFrom 0 ds : Int)
      if -(2 ^ 63 : Int) ≤ v ∧ v ≤ 2 ^ 63 - 1 then some v else none
    else none

/-- The page the specification asks for: the parsed value when there is one and it is at
least 1, else 1. -/
def specPage (pageStr : GoString) : Int :=
  match decimalInt pageStr with
  | some n => if 1 ≤ n then n else 1
  | none => 1

/-- The page size the specification asks for: the parsed value when there is one and it
lies in `[1, 250]`, else 10. -/
def specPageSize (pageSizeStr : GoString) : Int :=
  match decimalInt pageSizeStr with
  | some n => if 1 ≤ n ∧ n ≤ 250 then n else 10
  | none => 10

/-! ## Notions used in the statements -/

/-- A byte that is none of the separators `&`, `=`, `;`, `#`, `?`. -/
def plainByte (b : Byte) : Bool :=
  decide (b ≠ byteOf '&' ∧ b ≠ byteOf '=' ∧ b ≠ byteOf ';' ∧ b ≠ byteOf '#' ∧ b ≠ byteOf '?')

/-- A key of the upstream query as the handler writes it: not empty, free of separators,
and left unchanged by `QueryUnescape`. -/
def literalKey (key : GoString) : Prop :=
  key ≠ [] ∧ (∀ b ∈ key, plainByte b = true) ∧ QueryUnescape key = some key

/-- A string in which neither `?` nor `#` occurs, so that it does not end the path of a URL
it is pasted into. -/
def queryFree (s : GoString) : Prop := byteOf '?' ∉ s ∧ byteOf '#' ∉ s

/-- The headers that `http.Error` leaves on the writer. -/
def errorHeader (h : Header) : Header :=
  Header.Set (Header.Set (Header.Del h (ascii "Content-Length")) (ascii "Content-Type")
    (ascii "text/plain; charset=utf-8")) (ascii "X-Content-Type-Options") (ascii "nosniff")

/-- The headers that `corsMiddleware` sets on a writer that had none. -/
def corsHeader : Header :=
  [ (ascii "Access-Control-Allow-Origin", [ascii "http://localhost:3000"]),
    (ascii "Access-Control-Allow-Methods", [ascii "GET, POST, OPTIONS"]),
    (ascii "Access-Control-Allow-Headers", [ascii "Content-Type, X-Typesense-Api-Key"]),
    (ascii "Access-Control-Max-Age", [ascii "86400"]) ]

/-- The names of the members of a JSON object, in order; no names for any other document. -/
def JSON.memberNames : JSON → List GoString
  | .object members => members.map Prod.fst
  | _ => []

/-- The document that `encodeResponse` writes for one field of `t`. -/
def fieldDoc (env : World) (t : TypesenseSearchResponse) : ResponseField → JSON
  | .FacetCounts => encodeAnySliceField env t.FacetCounts
  | .Found => .number (Itoa t.Found)
  | .Hits => encodeHitsField env t.Hits
  | .OutOf => .number (Itoa t.OutOf)
  | .Page => .number (Itoa t.Page)
  | .RequestParams => encodeMapField env t.RequestParams
  | .SearchTimeMs => .number (Itoa t.SearchTimeMs)

/-- What the response holds for a field that the upstream document does not name: `null`
for the slices and the map, `0` for the counters. -/
def absentDoc : ResponseField → JSON
  | .FacetCounts => .null
  | .Found => .number (ascii "0")
  | .Hits => .null
  | .OutOf => .number (ascii "0")
  | .Page => .number (ascii "0")
  | .RequestParams => .null
  | .SearchTimeMs => .number (ascii "0")

/-! ## The end-to-end scenario of the specification -/

mutual
/-- Compact JSON text of a document whose strings need no escaping, as `encoding/json`
writes it; the text layer of the scenario world. -/
def renderJSON : JSON → GoString
  | .null => ascii "null"
  | .bool true => ascii "true"
  | .bool false => ascii "false"
  | .number lit => lit
  | .string s => byteOf '"' :: s ++ [byteOf '"']
  | .array elems => byteOf '[' :: renderElems elems ++ [byteOf ']']
  | .object members => byteOf '{' :: renderMembers members ++ [byteOf '}']
/-- The elements of an array, separated by commas. -/
def renderElems : List JSON → GoString
  | [] => []
  | [x] => renderJSON x
  | x :: y :: rest => renderJSON x ++ byteOf ',' :: renderElems (y :: rest)
/-- The members of an object, separated by commas. -/
def renderMembers : List (GoString × JSON) → GoString
  | [] => []
  | [(k, x)] => byteOf '"' :: k ++ byteOf '"' :: byteOf ':' :: renderJSON x
  | (k, x) :: kv :: rest =>
    byteOf '"' :: k ++ byteOf '"' :: byteOf ':' :: renderJSON x ++ byteOf ',' :: renderMembers (kv :: rest)
end

/-- The configuration of the scenario: host `localhost`, port `8108`, API key `xyz`,
collection `books`, search fields `title,author`. -/
def scenarioConfig : TypesenseConfig :=
  { Host := ascii "localhost", Port := ascii "8108", APIKey := ascii "xyz",
    Collection := ascii "books", SearchByFields := ascii "title,author" }

/-- The request `GET /search?q=tolkien&page=2&pageSize=5`. -/
def scenarioRequest : Request :=
  { Method := ascii "GET", Path := ascii "/search", RawQuery := ascii "q=tolkien&page=2&pageSize=5" }

/-- The body the search service returns in the scenario. -/
def scenarioBody : GoString :=
  ascii "\x7b\"found\":1,\"hits\":[\x7b\"document\":\x7b\"title\":\"The Hobbit\"\x7d\x7d],\"out_of\":100,\"page\":2,\"search_time_ms\":3\x7d"

/-- The document that `scenarioBody` is the text of. -/
def scenarioDocument : JSON :=
  .object
    [ (ascii "found", .number (ascii "1")),
      (ascii "hits", .array [.object [(ascii "document", .object [(ascii "title", .string (ascii "The Hobbit"))])]]),
      (ascii "out_of", .number (ascii "100")),
      (ascii "page", .number (ascii "2")),
      (ascii "search_time_ms", .number (ascii "3")) ]

/-- A world in which every URL is accepted and the search service answers every request
with `result`. Its JSON scanner knows the one document of the scenario; none of the numbers
of that document is read as a `float64`. -/
def worldWith (result : DoResult) : World :=
  { NewRequestErr := fun _ => none,
    Do := fun _ => result,
    scanJSON := fun body => if body = scenarioBody then some scenarioDocument else none,
    textJSON := renderJSON,
    parseFloat := fun _ => none,
    formatFloat := fun _ => [],
    omitNegativeZero := true }

/-- The world of the scenario: the search service answers `200` with `scenarioBody`. -/
def scenarioWorld : World := worldWith (.response 200 (.ok scenarioBody))

/-- The world in which the search service cannot be reached. -/
def unreachableWorld : World :=
  worldWith (.transportError (ascii "dial tcp 127.0.0.1:8108: connect: connection refused"))

/-- The world in which the search service answers `404` with a body that is not JSON. -/
def notFoundWorld : World := worldWith (.response 404 (.ok (ascii "Not Found")))

/-- The request `GET /search?page=3&pageSize=20`, which has no `q`. -/
def requestWithoutQuery : Request :=
  { Method := ascii "GET", Path := ascii "/search", RawQuery := ascii "page=3&pageSize=20" }

/-- The request `OPTIONS /search?q=tolkien`. -/
def preflightRequest : Request :=
  { Method := ascii "OPTIONS", Path := ascii "/search", RawQuery := ascii "q=tolkien" }

/-- The world in which the search service answers with the status line `HTTP/1.1 099 x`
and the body `boom`; the client of `net/http` reads such a line as status code 99. -/
def invalidStatusWorld : World := worldWith (.response 99 (.ok (ascii "boom")))

/-- The world in which the search service answers `204` and the client reads the body
`boom`. -/
def noContentWorld : World := worldWith (.response 204 (.ok (ascii "boom")))

/-- A configuration whose collection name holds a `#`. -/
def fragmentConfig : TypesenseConfig :=
  { Host := ascii "localhost", Port := ascii "8108", APIKey := ascii "xyz",
    Collection := ascii "a#b", SearchByFields := [] }

/-- A configuration whose collection name holds a `?` followed by a `per_page` pair. -/
def shadowConfig : TypesenseConfig :=
  { Host := ascii "localhost", Port := ascii "8108", APIKey := ascii "xyz",
    Collection := ascii "a?per_page=7&b", SearchByFields := [] }

/-- A configuration whose collection name holds a `?`. -/
def markedConfig : TypesenseConfig :=
  { Host := ascii "localhost", Port := ascii "8108", APIKey := ascii "xyz",
    Collection := ascii "a?b", SearchByFields := [] }

/-- The value of `tsResponse` after `json.Unmarshal` of `scenarioBody`. -/
def scenarioParsed : TypesenseSearchResponse :=
  { FacetCounts := none,
    Found := 1,
    Hits := some
      { len := 1,
        backing := [{ Document := some [(ascii "title", GoAny.string (ascii "The Hobbit"))],
                      Highlight := none, TextMatch := 0 }] },
    OutOf := 100,
    Page := 2,
    RequestParams := none,
    SearchTimeMs := 3 }

/-- The body that `searchHandler` writes in the scenario. -/
def scenarioResponseBody : GoString :=
  ascii "\x7b\"facet_counts\":null,\"found\":1,\"hits\":[\x7b\"document\":\x7b\"title\":\"The Hobbit\"\x7d\x7d],\"out_of\":100,\"page\":2,\"request_params\":null,\"search_time_ms\":3\x7d\n"

/-! # Properties -/

set_option maxRecDepth 1000000

/-! ## strconv: `Atoi` reads decimal integers -/

theorem byte_sub48 : ∀ c : Byte, (decide (c - byteOf '0' > 9) = !isDigit c) ∧
    (isDigit c = true → (c - byteOf '0').val = c.val - 48) := by
  decide

theorem digitsValueFrom_cons (n : Nat) (c : Byte) (ds : GoString) :
    digitsValueFrom n (c :: ds) = digitsValueFrom (n * 10 + (c.val - 48)) ds := rfl

theorem digitsValueFrom_ge (ds : GoString) (n : Nat) : n ≤ digitsValueFrom n ds := by
  induction ds generalizing n with
  | nil => simp [digitsValueFrom]
  | cons c ds ih =>
    rw [digitsValueFrom_cons]
    have := ih (n * 10 + (c.val - 48))
    omega

theorem parseUintLoop_digit (c : Byte) (ds : GoString) (n : Nat) (hc : isDigit c = true) :
    parseUintLoop (c :: ds) n =
      if n ≥ (2 ^ 64 - 1) / 10 + 1 then (2 ^ 64 - 1, some .ErrRange)
      else if n * 10 + (c.val - 48) > 2 ^ 64 - 1 then (2 ^ 64 - 1, some .ErrRange)
      else parseUintLoop ds (n * 10 + (c.val - 48)) := by
  have hc2 : 48 ≤ c.val ∧ c.val ≤ 57 := by simpa [isDigit] using hc
  have hd : ¬ (c.val - 48 ≥ 10) := by omega
  simp only [parseUintLoop, hc2, and_self, if_true, hd, if_false]

theorem parseUintLoop_nondigit (c : Byte) (ds : GoString) (n : Nat) (hc : ¬ isDigit c = true) :
    parseUintLoop (c :: ds) n = (0, some .ErrSyntax) := by
  have hc2 : ¬(48 ≤ c.val ∧ c.val ≤ 57) := by simpa [isDigit] using hc
  simp only [parseUintLoop, hc2, if_false]
  split
  · rfl
  · rename_i d hd
    split at hd
    · have : d ≥ 10 := by
        have := Option.some.inj hd
        omega
      simp [this]
    · cases hd

theorem parseUintLoop_char (ds : GoString) (n : Nat) (hn : n ≤ 2 ^ 64 - 1) :
    (ds.all isDigit = true ∧ digitsValueFrom n ds ≤ 2 ^ 64 - 1 ∧
        parseUintLoop ds n = (digitsValueFrom n ds, none)) ∨
    (¬(ds.all isDigit = true ∧ digitsValueFrom n ds ≤ 2 ^ 64 - 1) ∧
        (parseUintLoop ds n = (0, some .ErrSyntax) ∨
          parseUintLoop ds n = (2 ^ 64 - 1, some .ErrRange))) := by
  induction ds generalizing n with
  | nil => exact Or.inl ⟨rfl, hn, rfl⟩
  | cons c ds ih =>
    rw [digitsValueFrom_cons]
    by_cases hc : isDigit c = true
    · have hge := digitsValueFrom_ge ds (n * 10 + (c.val - 48))
      rw [parseUintLoop_digit c ds n hc]
      by_cases h1 : n ≥ (2 ^ 64 - 1) / 10 + 1
      · right
        refine ⟨?_, Or.inr ?_⟩
        · rintro ⟨_, h⟩; omega
        · simp only [h1, if_true]
      · by_cases h2 : n * 10 + (c.val - 48) > 2 ^ 64 - 1
        · right
          refine ⟨?_, Or.inr ?_⟩
          · rintro ⟨_, h⟩; omega
          · simp only [h1, h2, if_true, if_false]
        · simp only [h1, h2, if_false]
          have := ih (n * 10 + (c.val - 48)) (by omega)
          simpa [hc] using this
    · right
      refine ⟨?_, Or.inl (parseUintLoop_nondigit c ds n hc)⟩
      simp [hc]

theorem ParseUint_char (s : GoString) :
    (s ≠ [] ∧ s.all isDigit = true ∧ digitsValueFrom 0 s ≤ 2 ^ 64 - 1 ∧
        ParseUint s = (digitsValueFrom 0 s, none)) ∨
    (¬(s ≠ [] ∧ s.all isDigit = true ∧ digitsValueFrom 0 s ≤ 2 ^ 64 - 1) ∧
        (ParseUint s = (0, some .ErrSyntax) ∨ ParseUint s = (2 ^ 64 - 1, some .ErrRange))) := by
  by_cases hs : s = []
  · subst hs
    right
    exact ⟨by simp, Or.inl rfl⟩
  · have hP : ParseUint s = parseUintLoop s 0 := by simp [ParseUint, hs]
    rw [hP]
    rcases parseUintLoop_char s 0 (by omega) with ⟨h1, h2, h3⟩ | ⟨h1, h2⟩
    · exact Or.inl ⟨hs, h1, h2, h3⟩
    · right
      refine ⟨?_, h2⟩
      rintro ⟨_, h3, h4⟩
      exact h1 ⟨h3, h4⟩

theorem atoiFastLoop_char (ds : GoString) (k : Nat) :
    atoiFastLoop ds (k : Int) =
      if ds.all isDigit = true then some ((digitsValueFrom k ds : Nat) : Int) else none := by
  induction ds generalizing k with
  | nil => simp [atoiFastLoop, digitsValueFrom]
  | cons c ds ih =>
    have hb := byte_sub48 c
    by_cases hc : isDigit c = true
    · have h1 : ¬ (c - byteOf '0' > 9) := by
        have := hb.1
        simp [hc] at this
        simpa using this
      have h2 := hb.2 hc
      have hc2 : 48 ≤ c.val ∧ c.val ≤ 57 := by simpa [isDigit] using hc
      have hcast : (k : Int) * 10 + (((c - byteOf '0').val : Nat) : Int)
          = ((k * 10 + (c.val - 48) : Nat) : Int) := by
        rw [h2]; push_cast; rfl
      simp only [atoiFastLoop, h1, if_false]
      rw [hcast, ih, digitsValueFrom_cons]
      simp [hc]
    · have h1 : c - byteOf '0' > 9 := by
        have := hb.1
        simp [hc] at this
        simpa using this
      simp [atoiFastLoop, h1, hc]

theorem digitsValueFrom_lt (ds : GoString) (n : Nat) (hd : ds.all isDigit = true) :
    digitsValueFrom n ds < (n + 1) * 10 ^ ds.length := by
  induction ds generalizing n with
  | nil => simp [digitsValueFrom]
  | cons c ds ih =>
    rw [digitsValueFrom_cons]
    simp only [List.all_cons, Bool.and_eq_true] at hd
    have hc2 : 48 ≤ c.val ∧ c.val ≤ 57 := by simpa [isDigit] using hd.1
    have h1 := ih (n * 10 + (c.val - 48)) hd.2
    have h2 : (n * 10 + (c.val - 48) + 1) * 10 ^ ds.length ≤ ((n + 1) * 10) * 10 ^ ds.length :=
      Nat.mul_le_mul_right _ (by omega)
    have h3 : (n + 1) * 10 ^ (c :: ds).length = ((n + 1) * 10) * 10 ^ ds.length := by
      simp [Nat.pow_succ]; ring
    omega

theorem digitsValue_small (ds : GoString) (hd : ds.all isDigit = true) (hl : ds.length ≤ 18) :
    digitsValueFrom 0 ds < 10 ^ 18 := by
  have h1 := digitsValueFrom_lt ds 0 hd
  have h2 : 10 ^ ds.length ≤ 10 ^ 18 := Nat.pow_le_pow_right (by omega) hl
  omega

theorem pow63_cast : ((2 ^ (intSize - 1) : Nat) : Int) = 9223372036854775808 := by
  simp [intSize]

theorem ParseInt_refines (s : GoString) :
    match decimalInt s with
    | some v => ParseInt s = (v, none)
    | none => (ParseInt s).2 ≠ none := by
  cases s with
  | nil => simp [decimalInt, ParseInt]
  | cons c rest =>
    have hds : (if c = byteOf '+' then rest else if c = byteOf '-' then rest else c :: rest)
        = (if c = byteOf '-' ∨ c = byteOf '+' then rest else c :: rest) := by
      by_cases h1 : c = byteOf '+' <;> by_cases h2 : c = byteOf '-' <;> simp [h1, h2]
    simp only [decimalInt, ParseInt, hds]
    generalize (if c = byteOf '-' ∨ c = byteOf '+' then rest else c :: rest) = ds
    have hp : (2 ^ (intSize - 1) : Nat) = 9223372036854775808 := by simp [intSize]
    have hq : (2 ^ 63 : Int) = 9223372036854775808 := by norm_num
    have hm : (2 ^ 64 - 1 : Nat) = 18446744073709551615 := by norm_num
    rw [hm] at *
    rcases ParseUint_char ds with ⟨h1, h2, h3, h4⟩ | ⟨h1, h4 | h4⟩
    · rw [h4]
      simp only [h1, h2, ne_eq, not_false_eq_true, and_self, if_true, hp, hq]
      generalize digitsValueFrom 0 ds = V at *
      by_cases hneg : c = byteOf '-'
      · simp only [hneg, if_true, decide_True, Bool.not_true, Bool.false_eq_true, false_and,
          if_false, true_and]
        split
        · rename_i v hv
          split at hv
          · cases hv
            rw [if_neg (by simp), if_neg (by omega)]
          · cases hv
        · rename_i hv
          split at hv
          · cases hv
          · rw [if_neg (by simp), if_pos (by omega)]
            simp
      · simp only [hneg, if_false, decide_False, Bool.not_false, true_and, Bool.false_eq_true,
          false_and]
        split
        · rename_i v hv
          split at hv
          · cases hv
            rw [if_neg (by simp), if_neg (by omega)]
          · cases hv
        · rename_i hv
          split at hv
          · cases hv
          · rw [if_neg (by simp), if_pos (by omega)]
            simp
    · rw [h4]
      have hnone : ∀ (o : Option Int), (if ds ≠ [] ∧ ds.all isDigit = true then
            (if -(2 ^ 63 : Int) ≤ (if c = byteOf '-' then -((digitsValueFrom 0 ds : Nat) : Int)
                  else ((digitsValueFrom 0 ds : Nat) : Int))
                ∧ (if c = byteOf '-' then -((digitsValueFrom 0 ds : Nat) : Int)
                  else ((digitsValueFrom 0 ds : Nat) : Int)) ≤ 2 ^ 63 - 1
              then o else none)
          else none) = none := by
        intro o
        by_cases hd : ds ≠ [] ∧ ds.all isDigit = true
        · have hbig : ¬ digitsValueFrom 0 ds ≤ 18446744073709551615 := fun h => h1 ⟨hd.1, hd.2, h⟩
          rw [if_pos hd]
          by_cases hneg : c = byteOf '-'
          · simp only [hneg, if_true]
            rw [if_neg]; omega
          · simp only [hneg, if_false]
            rw [if_neg]; omega
        · rw [if_neg hd]
      rw [hnone]
      simp
    · rw [h4]
      have hnone : ∀ (o : Option Int), (if ds ≠ [] ∧ ds.all isDigit = true then
            (if -(2 ^ 63 : Int) ≤ (if c = byteOf '-' then -((digitsValueFrom 0 ds : Nat) : Int)
                  else ((digitsValueFrom 0 ds : Nat) : Int))
                ∧ (if c = byteOf '-' then -((digitsValueFrom 0 ds : Nat) : Int)
                  else ((digitsValueFrom 0 ds : Nat) : Int)) ≤ 2 ^ 63 - 1
              then o else none)
          else none) = none := by
        intro o
        by_cases hd : ds ≠ [] ∧ ds.all isDigit = true
        · have hbig : ¬ digitsValueFrom 0 ds ≤ 18446744073709551615 := fun h => h1 ⟨hd.1, hd.2, h⟩
          rw [if_pos hd]
          by_cases hneg : c = byteOf '-'
          · simp only [hneg, if_true]
            rw [if_neg]; omega
          · simp only [hneg, if_false]
            rw [if_neg]; omega
        · rw [if_neg hd]
      rw [hnone]
      by_cases hneg : c = byteOf '-' <;> simp [hneg, intSize]

theorem Atoi_refines (s : GoString) :
    match decimalInt s with
    | some v => Atoi s = (v, none)
    | none => (Atoi s).2 ≠ none := by
  by_cases hfast : 0 < s.length ∧ s.length < 19
  · cases s with
    | nil => simp at hfast
    | cons c rest =>
      have hA : Atoi (c :: rest) =
          (if (if c = byteOf '-' ∨ c = byteOf '+' then rest else c :: rest).length < 1
            then (0, some NumErr.ErrSyntax)
            else
              match atoiFastLoop (if c = byteOf '-' ∨ c = byteOf '+' then rest else c :: rest) 0 with
              | none => (0, some NumErr.ErrSyntax)
              | some n => if c = byteOf '-' then (-n, none) else (n, none)) := by
        simp only [Atoi]
        rw [if_pos hfast]
      rw [hA]
      simp only [decimalInt]
      have hlen : (if c = byteOf '-' ∨ c = byteOf '+' then rest else c :: rest).length ≤ 18 := by
        simp only [List.length_cons] at hfast
        split
        · omega
        · simp only [List.length_cons]; omega
      generalize (if c = byteOf '-' ∨ c = byteOf '+' then rest else c :: rest) = ds at hlen ⊢
      have hloop := atoiFastLoop_char ds 0
      simp only [Nat.cast_zero] at hloop
      rw [hloop]
      by_cases hd : ds.all isDigit = true
      · by_cases he : ds = []
        · subst he
          simp
        · have hsmall := digitsValue_small ds hd hlen
          have hl : ¬ ds.length < 1 := by
            cases ds with
            | nil => exact absurd rfl he
            | cons _ _ => simp
          rw [if_pos ⟨he, hd⟩, if_neg hl, if_pos hd]
          generalize digitsValueFrom 0 ds = V at *
          by_cases hneg : c = byteOf '-'
          · simp only [hneg, if_true]
            rw [if_pos (by omega)]
          · simp only [hneg, if_false]
            rw [if_pos (by omega)]
      · rw [if_neg (fun h => hd h.2), if_neg hd]
        split <;> simp_all
  · have hA : Atoi s = ParseInt s := by
      simp only [Atoi]
      rw [if_neg hfast]
    rw [hA]
    exact ParseInt_refines s

/-! ## net/url: `ParseQuery` inverts `Values.Encode` on the query of the handler -/

theorem escape_byte_facts : ∀ c : Byte,
    (ishex (upperhex (c.val / 16)) = true ∧ ishex (upperhex (c.val % 16)) = true ∧
      (Fin.ofNat (unhex (upperhex (c.val / 16)) * 16 + unhex (upperhex (c.val % 16))) : Byte) = c ∧
      plainByte (upperhex (c.val / 16)) = true ∧ plainByte (upperhex (c.val % 16)) = true) ∧
    (shouldEscape c = false → c ≠ byteOf '%' ∧ c ≠ byteOf '+' ∧ plainByte c = true) := by
  decide

theorem QueryUnescape_plus (t : GoString) :
    QueryUnescape (byteOf '+' :: t) = (QueryUnescape t).map (fun u => byteOf ' ' :: u) := by
  have h2 : ¬ (byteOf '+' = byteOf '%') := by decide
  rw [QueryUnescape.eq_def]
  simp only [h2, if_false, if_true]

theorem QueryUnescape_keep (c : Byte) (t : GoString) (h1 : c ≠ byteOf '%') (h2 : c ≠ byteOf '+') :
    QueryUnescape (c :: t) = (QueryUnescape t).map (fun u => c :: u) := by
  rw [QueryUnescape.eq_def]
  simp only [h1, h2, if_false]

theorem QueryUnescape_hex (h1 h2 : Byte) (t : GoString) (e1 : ishex h1 = true)
    (e2 : ishex h2 = true) :
    QueryUnescape (byteOf '%' :: h1 :: h2 :: t) =
      (QueryUnescape t).map (fun u => Fin.ofNat (unhex h1 * 16 + unhex h2) :: u) := by
  rw [QueryUnescape.eq_def]
  simp only [if_true, e1, e2, and_self]

theorem QueryUnescape_QueryEscape (s : GoString) : QueryUnescape (QueryEscape s) = some s := by
  induction s with
  | nil => rfl
  | cons c rest ih =>
    have hf := escape_byte_facts c
    by_cases h1 : c = byteOf ' '
    · subst h1
      have : QueryEscape (byteOf ' ' :: rest) = byteOf '+' :: QueryEscape rest := by
        simp [QueryEscape]
      rw [this]
      rw [QueryUnescape_plus, ih]
      rfl
    · by_cases h2 : shouldEscape c = true
      · have : QueryEscape (c :: rest) =
            byteOf '%' :: upperhex (c.val / 16) :: upperhex (c.val % 16) :: QueryEscape rest := by
          simp [QueryEscape, h1, h2]
        rw [this]
        rw [QueryUnescape_hex _ _ _ hf.1.1 hf.1.2.1, ih, Option.map_some', hf.1.2.2.1]
      · have h2f : shouldEscape c = false := by simpa using h2
        have hc := hf.2 h2f
        have : QueryEscape (c :: rest) = c :: QueryEscape rest := by
          simp [QueryEscape, h1, h2]
        rw [this]
        rw [QueryUnescape_keep _ _ hc.1 hc.2.1, ih]
        rfl

theorem QueryEscape_plain (s : GoString) : ∀ b ∈ QueryEscape s, plainByte b = true := by
  induction s with
  | nil => intro b hb; simp [QueryEscape] at hb
  | cons c rest ih =>
    have hf := escape_byte_facts c
    intro b hb
    by_cases h1 : c = byteOf ' '
    · subst h1
      have : QueryEscape (byteOf ' ' :: rest) = byteOf '+' :: QueryEscape rest := by
        simp [QueryEscape]
      rw [this] at hb
      rcases List.mem_cons.1 hb with h | h
      · subst h; decide
      · exact ih b h
    · by_cases h2 : shouldEscape c = true
      · have : QueryEscape (c :: rest) =
            byteOf '%' :: upperhex (c.val / 16) :: upperhex (c.val % 16) :: QueryEscape rest := by
          simp [QueryEscape, h1, h2]
        rw [this] at hb
        simp only [List.mem_cons] at hb
        rcases hb with h | h | h | h
        · subst h; decide
        · subst h; exact hf.1.2.2.2.1
        · subst h; exact hf.1.2.2.2.2
        · exact ih b h
      · have h2f : shouldEscape c = false := by simpa using h2
        have hc := hf.2 h2f
        have : QueryEscape (c :: rest) = c :: QueryEscape rest := by
          simp [QueryEscape, h1, h2]
        rw [this] at hb
        rcases List.mem_cons.1 hb with h | h
        · subst h; exact hc.2.2
        · exact ih b h

theorem Cut_append (a b : GoString) (sep : Byte) (h : sep ∉ a) :
    Cut (a ++ sep :: b) sep = (a, b, true) := by
  induction a with
  | nil => simp [Cut]
  | cons c a ih =>
    have hc : c ≠ sep := fun e => h (by simp [e])
    have ha : sep ∉ a := fun e => h (by simp [e])
    simp [Cut, hc, ih ha]

theorem Cut_absent (a : GoString) (sep : Byte) (h : sep ∉ a) : Cut a sep = (a, [], false) := by
  induction a with
  | nil => simp [Cut]
  | cons c a ih =>
    have hc : c ≠ sep := fun e => h (by simp [e])
    have ha : sep ∉ a := fun e => h (by simp [e])
    simp [Cut, hc, ih ha]

theorem plainByte_ne (b : Byte) (h : plainByte b = true) :
    b ≠ byteOf '&' ∧ b ≠ byteOf '=' ∧ b ≠ byteOf ';' ∧ b ≠ byteOf '#' ∧ b ≠ byteOf '?' := by
  simpa [plainByte] using h

theorem not_mem_of_plain (s : GoString) (sep : Byte) (hs : ∀ b ∈ s, plainByte b = true)
    (hsep : plainByte sep = false) : sep ∉ s := by
  intro h
  have := hs sep h
  rw [hsep] at this
  cases this

theorem parseQueryLoop_pair (fuel : Nat) (m : Values) (err : Option QueryErr)
    (key v rest : GoString) (hk : literalKey key) :
    parseQueryLoop (fuel + 1) m err (key ++ byteOf '=' :: QueryEscape v ++ byteOf '&' :: rest)
      = parseQueryLoop fuel (Values.Add m key v) err rest := by
  obtain ⟨hne, hplain, hun⟩ := hk
  have hv := QueryEscape_plain v
  have hq : key ++ byteOf '=' :: QueryEscape v ++ byteOf '&' :: rest
      = (key ++ byteOf '=' :: QueryEscape v) ++ byteOf '&' :: rest := by simp
  have hamp : byteOf '&' ∉ key ++ byteOf '=' :: QueryEscape v := by
    intro h
    rcases List.mem_append.1 h with h | h
    · exact not_mem_of_plain key _ hplain (by decide) h
    · rcases List.mem_cons.1 h with h | h
      · exact absurd h (by decide)
      · exact not_mem_of_plain _ _ hv (by decide) h
  have hsemi : byteOf ';' ∉ key ++ byteOf '=' :: QueryEscape v := by
    intro h
    rcases List.mem_append.1 h with h | h
    · exact not_mem_of_plain key _ hplain (by decide) h
    · rcases List.mem_cons.1 h with h | h
      · exact absurd h (by decide)
      · exact not_mem_of_plain _ _ hv (by decide) h
  have heq : byteOf '=' ∉ key := not_mem_of_plain key _ hplain (by decide)
  have hne2 : key ++ byteOf '=' :: QueryEscape v ≠ [] := by simp
  have hne3 : (key ++ byteOf '=' :: QueryEscape v) ++ byteOf '&' :: rest ≠ [] := by simp
  rw [hq]
  simp only [parseQueryLoop, hne3, if_false, Cut_append _ _ _ hamp, hsemi, hne2,
    Cut_append _ _ _ heq, hun, QueryUnescape_QueryEscape]

theorem parseQueryLoop_last (fuel : Nat) (m : Values) (err : Option QueryErr)
    (key v : GoString) (hk : literalKey key) :
    parseQueryLoop (fuel + 2) m err (key ++ byteOf '=' :: QueryEscape v)
      = (Values.Add m key v, err) := by
  obtain ⟨hne, hplain, hun⟩ := hk
  have hv := QueryEscape_plain v
  have hamp : byteOf '&' ∉ key ++ byteOf '=' :: QueryEscape v := by
    intro h
    rcases List.mem_append.1 h with h | h
    · exact not_mem_of_plain key _ hplain (by decide) h
    · rcases List.mem_cons.1 h with h | h
      · exact absurd h (by decide)
      · exact not_mem_of_plain _ _ hv (by decide) h
  have hsemi : byteOf ';' ∉ key ++ byteOf '=' :: QueryEscape v := by
    intro h
    rcases List.mem_append.1 h with h | h
    · exact not_mem_of_plain key _ hplain (by decide) h
    · rcases List.mem_cons.1 h with h | h
      · exact absurd h (by decide)
      · exact not_mem_of_plain _ _ hv (by decide) h
  have heq : byteOf '=' ∉ key := not_mem_of_plain key _ hplain (by decide)
  have hne2 : key ++ byteOf '=' :: QueryEscape v ≠ [] := by simp
  simp only [parseQueryLoop, hne2, if_false, Cut_absent _ _ hamp, hsemi,
    Cut_append _ _ _ heq, hun, QueryUnescape_QueryEscape, if_true]

theorem Cut_length (q : GoString) (sep : Byte) (hq : q ≠ []) :
    (Cut q sep).2.1.length + 1 ≤ q.length := by
  induction q with
  | nil => exact absurd rfl hq
  | cons c rest ih =>
    by_cases hc : c = sep
    · simp [Cut, hc]
    · by_cases hr : rest = []
      · subst hr
        simp [Cut, hc]
      · have := ih hr
        simp only [Cut, hc, if_false, List.length_cons]
        omega

theorem parseQueryLoop_fuel (f1 f2 : Nat) (m : Values) (err : Option QueryErr) (query : GoString)
    (h1 : query.length ≤ f1) (h2 : query.length ≤ f2) :
    parseQueryLoop f1 m err query = parseQueryLoop f2 m err query := by
  induction f1 generalizing f2 m err query with
  | zero =>
    have hq : query = [] := List.length_eq_zero.1 (by omega)
    subst hq
    cases f2 <;> simp [parseQueryLoop]
  | succ f1 ih =>
    cases f2 with
    | zero =>
      have hq : query = [] := List.length_eq_zero.1 (by omega)
      subst hq
      simp [parseQueryLoop]
    | succ f2 =>
      by_cases hq : query = []
      · subst hq
        simp [parseQueryLoop]
      · have hlen := Cut_length query (byteOf '&') hq
        have e1 : (Cut query (byteOf '&')).2.1.length ≤ f1 := by omega
        have e2 : (Cut query (byteOf '&')).2.1.length ≤ f2 := by omega
        simp only [parseQueryLoop, hq, if_false]
        split
        · exact ih _ _ _ _ e1 e2
        · split
          · exact ih _ _ _ _ e1 e2
          · split
            · exact ih _ _ _ _ e1 e2
            · split
              · exact ih _ _ _ _ e1 e2
              · exact ih _ _ _ _ e1 e2

/-- The loop of `ParseQuery` never runs out of fuel: any larger bound gives the same result. -/
theorem ParseQuery_fuel (query : GoString) (fuel : Nat) (h : query.length ≤ fuel) :
    parseQueryLoop fuel [] none query = ParseQuery query :=
  parseQueryLoop_fuel _ _ _ _ _ h (by omega)

theorem searchParams_eq (tsConfig : TypesenseConfig) (r : Request) (q : GoString) :
    searchParams tsConfig r q =
      [(ascii "q", [q]), (ascii "per_page", [Itoa (effectivePageSize r)]),
        (ascii "page", [Itoa (effectivePage r)])]
        ++ (if tsConfig.SearchByFields ≠ [] then [(ascii "query_by", [tsConfig.SearchByFields])]
            else []) := by
  unfold searchParams
  split <;> rfl

theorem encodeValues_one (ke v buf : GoString) :
    encodeValues ke [v] buf =
      (if buf.length > 0 then buf ++ [byteOf '&'] else buf) ++ ke ++ [byteOf '='] ++ QueryEscape v :=
  rfl

theorem Encode_searchParams (tsConfig : TypesenseConfig) (r : Request) (q : GoString) :
    Values.Encode (searchParams tsConfig r q) =
      ascii "page" ++ byteOf '=' :: QueryEscape (Itoa (effectivePage r)) ++ byteOf '&' ::
        (ascii "per_page" ++ byteOf '=' :: QueryEscape (Itoa (effectivePageSize r)) ++ byteOf '&' ::
          (if tsConfig.SearchByFields ≠ [] then
            ascii "q" ++ byteOf '=' :: QueryEscape q ++ byteOf '&' ::
              (ascii "query_by" ++ byteOf '=' :: QueryEscape tsConfig.SearchByFields)
          else ascii "q" ++ byteOf '=' :: QueryEscape q)) := by
  rw [searchParams_eq]
  by_cases hf : tsConfig.SearchByFields ≠ []
  · rw [if_pos hf, if_pos hf]
    have hs : sortStrings (([(ascii "q", [q]), (ascii "per_page", [Itoa (effectivePageSize r)]),
        (ascii "page", [Itoa (effectivePage r)])]
        ++ [(ascii "query_by", [tsConfig.SearchByFields])]).map Prod.fst)
        = [ascii "page", ascii "per_page", ascii "q", ascii "query_by"] := by
      simp only [List.map, List.cons_append, List.nil_append]
      decide
    unfold Values.Encode
    rw [hs]
    simp [encodeKeys, StringListMap.index, encodeValues_one,
      show QueryEscape (ascii "page") = ascii "page" from by decide,
      show QueryEscape (ascii "per_page") = ascii "per_page" from by decide,
      show QueryEscape (ascii "q") = ascii "q" from by decide,
      show QueryEscape (ascii "query_by") = ascii "query_by" from by decide,
      show (ascii "q" = ascii "page") = False from by decide,
      show (ascii "per_page" = ascii "page") = False from by decide,
      show (ascii "q" = ascii "per_page") = False from by decide,
      show (ascii "q" = ascii "query_by") = False from by decide,
      show (ascii "per_page" = ascii "query_by") = False from by decide,
      show (ascii "page" = ascii "query_by") = False from by decide,
      show ascii "page" ≠ [] from by decide]
  · rw [if_neg hf, if_neg hf]
    have hs : sortStrings (([(ascii "q", [q]), (ascii "per_page", [Itoa (effectivePageSize r)]),
        (ascii "page", [Itoa (effectivePage r)])] ++ []).map Prod.fst)
        = [ascii "page", ascii "per_page", ascii "q"] := by
      simp only [List.map, List.cons_append, List.nil_append, List.append_nil]
      decide
    unfold Values.Encode
    rw [hs]
    simp [encodeKeys, StringListMap.index, encodeValues_one,
      show QueryEscape (ascii "page") = ascii "page" from by decide,
      show QueryEscape (ascii "per_page") = ascii "per_page" from by decide,
      show QueryEscape (ascii "q") = ascii "q" from by decide,
      show (ascii "q" = ascii "page") = False from by decide,
      show (ascii "per_page" = ascii "page") = False from by decide,
      show (ascii "q" = ascii "per_page") = False from by decide,
      show ascii "page" ≠ [] from by decide]

theorem literalKey_page : literalKey (ascii "page") := by
  refine ⟨by decide, by decide, by decide⟩

theorem literalKey_per_page : literalKey (ascii "per_page") := by
  refine ⟨by decide, by decide, by decide⟩

theorem literalKey_q : literalKey (ascii "q") := by
  refine ⟨by decide, by decide, by decide⟩

theorem literalKey_query_by : literalKey (ascii "query_by") := by
  refine ⟨by decide, by decide, by decide⟩

theorem ParseQuery_Encode_searchParams (tsConfig : TypesenseConfig) (r : Request) (q : GoString) :
    ParseQuery (Values.Encode (searchParams tsConfig r q)) =
      ([(ascii "page", [Itoa (effectivePage r)]),
        (ascii "per_page", [Itoa (effectivePageSize r)]),
        (ascii "q", [q])]
        ++ (if tsConfig.SearchByFields ≠ [] then [(ascii "query_by", [tsConfig.SearchByFields])]
            else []), none) := by
  rw [Encode_searchParams]
  unfold ParseQuery
  by_cases hf : tsConfig.SearchByFields ≠ []
  · rw [if_pos hf, if_pos hf]
    generalize hlen : (ascii "page" ++ byteOf '=' :: QueryEscape (Itoa (effectivePage r)) ++ byteOf '&' ::
        (ascii "per_page" ++ byteOf '=' :: QueryEscape (Itoa (effectivePageSize r)) ++ byteOf '&' ::
          (ascii "q" ++ byteOf '=' :: QueryEscape q ++ byteOf '&' ::
              (ascii "query_by" ++ byteOf '=' :: QueryEscape tsConfig.SearchByFields)))).length = len
    have hl : 4 ≤ len := by
      rw [← hlen]
      simp only [List.length_append, List.length_cons]
      omega
    obtain ⟨n, rfl⟩ : ∃ n, len = n + 4 := ⟨len - 4, by omega⟩
    rw [parseQueryLoop_pair _ _ _ _ _ _ literalKey_page,
      parseQueryLoop_pair _ _ _ _ _ _ literalKey_per_page,
      parseQueryLoop_pair _ _ _ _ _ _ literalKey_q,
      parseQueryLoop_last _ _ _ _ _ literalKey_query_by]
    rfl
  · rw [if_neg hf, if_neg hf]
    generalize hlen : (ascii "page" ++ byteOf '=' :: QueryEscape (Itoa (effectivePage r)) ++ byteOf '&' ::
        (ascii "per_page" ++ byteOf '=' :: QueryEscape (Itoa (effectivePageSize r)) ++ byteOf '&' ::
          (ascii "q" ++ byteOf '=' :: QueryEscape q))).length = len
    have hl : 3 ≤ len := by
      rw [← hlen]
      simp only [List.length_append, List.length_cons]
      omega
    obtain ⟨n, rfl⟩ : ∃ n, len = n + 3 := ⟨len - 3, by omega⟩
    rw [parseQueryLoop_pair _ _ _ _ _ _ literalKey_page,
      parseQueryLoop_pair _ _ _ _ _ _ literalKey_per_page,
      parseQueryLoop_last _ _ _ _ _ literalKey_q]
    rfl

/-! ## net/http: headers and `http.Error` -/

theorem index_assign_same (m : StringListMap) (k : GoString) (vs : List GoString) :
    StringListMap.index (StringListMap.assign m k vs) k = vs := by
  induction m with
  | nil => simp [StringListMap.assign, StringListMap.index]
  | cons kv rest ih =>
    obtain ⟨k1, v1⟩ := kv
    by_cases h : k1 = k
    · simp [StringListMap.assign, StringListMap.index, h]
    · simp [StringListMap.assign, StringListMap.index, h, ih]

theorem index_assign_ne (m : StringListMap) (k k2 : GoString) (vs : List GoString) (hne : k ≠ k2) :
    StringListMap.index (StringListMap.assign m k vs) k2 = StringListMap.index m k2 := by
  induction m with
  | nil => simp [StringListMap.assign, StringListMap.index, hne]
  | cons kv rest ih =>
    obtain ⟨k1, v1⟩ := kv
    by_cases h : k1 = k
    · subst h
      simp [StringListMap.assign, StringListMap.index, hne]
    · by_cases h2 : k1 = k2
      · subst h2
        simp [StringListMap.assign, StringListMap.index, h]
      · simp [StringListMap.assign, StringListMap.index, h, h2, ih]

theorem delete_cons (k1 : GoString) (v1 : List GoString) (rest : StringListMap) (k : GoString) :
    StringListMap.delete ((k1, v1) :: rest) k =
      if k1 = k then StringListMap.delete rest k else (k1, v1) :: StringListMap.delete rest k := by
  by_cases h : k1 = k <;> simp [StringListMap.delete, List.filter, h]

theorem index_delete_ne (m : StringListMap) (k k2 : GoString) (hne : k ≠ k2) :
    StringListMap.index (StringListMap.delete m k) k2 = StringListMap.index m k2 := by
  induction m with
  | nil => simp [StringListMap.delete, StringListMap.index]
  | cons kv rest ih =>
    obtain ⟨k1, v1⟩ := kv
    rw [delete_cons]
    by_cases h : k1 = k
    · subst h
      simp [StringListMap.index, hne, ih]
    · by_cases h2 : k1 = k2
      · subst h2
        simp [StringListMap.index, h]
      · simp [StringListMap.index, h, h2, ih]

theorem Error_response (w : ResponseWriter) (msg : GoString) (code : Int)
    (hw : w.wroteHeader = false) (hv : validStatusCode code = true)
    (hb : bodyAllowedForStatus code = true) :
    (Error w msg code).response =
      { status := code, header := errorHeader w.header, body := w.body ++ msg ++ [byteOf '\n'] } := by
  simp [Error, ResponseWriter.WriteHeader, ResponseWriter.Write, ResponseWriter.response, hw,
    hv, hb, errorHeader]

theorem Error_panicked (w : ResponseWriter) (msg : GoString) (code : Int)
    (hw : w.wroteHeader = false) (hp : w.panicked = false) (hv : validStatusCode code = true) :
    (Error w msg code).panicked = false := by
  unfold Error ResponseWriter.Write ResponseWriter.WriteHeader
  simp only [hw, hv, Bool.false_eq_true, if_false, if_true, Bool.not_true, Bool.and_false]
  split <;> exact hp

theorem Error_header (w : ResponseWriter) (msg : GoString) (code : Int)
    (hw : w.wroteHeader = false) :
    ((Error w msg code).response).header = errorHeader w.header := by
  by_cases hv : validStatusCode code = true
  · by_cases hb : bodyAllowedForStatus code = true
    · simp [Error, ResponseWriter.WriteHeader, ResponseWriter.Write, ResponseWriter.response,
        hw, hv, hb, errorHeader]
    · simp [Error, ResponseWriter.WriteHeader, ResponseWriter.Write, ResponseWriter.response,
        hw, hv, hb, errorHeader]
  · simp [Error, ResponseWriter.WriteHeader, ResponseWriter.response, hw, hv, errorHeader]

theorem errorHeader_frame (h : Header) (k : GoString) (h1 : k ≠ ascii "Content-Length")
    (h2 : k ≠ ascii "Content-Type") (h3 : k ≠ ascii "X-Content-Type-Options") :
    StringListMap.index (errorHeader h) k = StringListMap.index h k := by
  unfold errorHeader Header.Set Header.Del
  rw [index_assign_ne _ _ _ _ (Ne.symm h3), index_assign_ne _ _ _ _ (Ne.symm h2),
    index_delete_ne _ _ _ (Ne.symm h1)]

theorem errorHeader_contentType (h : Header) :
    Header.Get (errorHeader h) (ascii "Content-Type") = ascii "text/plain; charset=utf-8" := by
  unfold errorHeader Header.Set Header.Del Header.Get
  rw [index_assign_ne _ _ _ _ (by decide), index_assign_same]

/-! ## The handler -/

theorem digitChar_byte (d : Nat) (hd : d < 10) :
    isDigit (byteOf (Nat.digitChar d)) = true ∧ (byteOf (Nat.digitChar d)).val - 48 = d := by
  interval_cases d <;> decide

theorem isDigit_not_sign : ∀ c : Byte, isDigit c = true → c ≠ byteOf '-' ∧ c ≠ byteOf '+' := by
  decide

theorem digitsValueFrom_append (k : Nat) (xs : GoString) (c : Byte) :
    digitsValueFrom k (xs ++ [c]) = digitsValueFrom k xs * 10 + (c.val - 48) := by
  simp [digitsValueFrom, List.foldl_append]

theorem toDigitsCore_acc (fuel n : Nat) (ds : List Char) :
    Nat.toDigitsCore 10 fuel n ds = Nat.toDigitsCore 10 fuel n [] ++ ds := by
  induction fuel generalizing n ds with
  | zero => simp [Nat.toDigitsCore]
  | succ fuel ih =>
    simp only [Nat.toDigitsCore]
    split
    · simp
    · rw [ih, ih (n / 10) [Nat.digitChar (n % 10)]]
      simp

theorem toDigitsCore_decimal (fuel n : Nat) (h : n < fuel) :
    (Nat.toDigitsCore 10 fuel n []).map byteOf ≠ [] ∧
    ((Nat.toDigitsCore 10 fuel n []).map byteOf).all isDigit = true ∧
    digitsValueFrom 0 ((Nat.toDigitsCore 10 fuel n []).map byteOf) = n := by
  induction fuel generalizing n with
  | zero => omega
  | succ fuel ih =>
    have hd := digitChar_byte (n % 10) (Nat.mod_lt _ (by omega))
    simp only [Nat.toDigitsCore]
    split
    · rename_i h0
      refine ⟨by simp, by simp [hd.1], ?_⟩
      simp only [List.map, digitsValueFrom, List.foldl]
      omega
    · rename_i h0
      have hlt : n / 10 < fuel := by omega
      obtain ⟨i1, i2, i3⟩ := ih (n / 10) hlt
      rw [toDigitsCore_acc]
      simp only [List.map_append, List.map, List.all_append, Bool.and_eq_true]
      refine ⟨by simp, ⟨i2, by simp [hd.1]⟩, ?_⟩
      rw [digitsValueFrom_append, i3]
      omega

theorem Itoa_decimal (n : Int) (h0 : 0 ≤ n) (h1 : n ≤ 2 ^ 63 - 1) :
    decimalInt (Itoa n) = some n := by
  obtain ⟨m, rfl⟩ := Int.eq_ofNat_of_zero_le h0
  have hI : Itoa (m : Int) = (Nat.toDigitsCore 10 (m + 1) m []).map byteOf := by
    unfold Itoa
    rw [if_neg (by omega)]
    rfl
  obtain ⟨i1, i2, i3⟩ := toDigitsCore_decimal (m + 1) m (by omega)
  rw [hI]
  generalize (Nat.toDigitsCore 10 (m + 1) m []).map byteOf = s at i1 i2 i3
  cases s with
  | nil => exact absurd rfl i1
  | cons c rest =>
    have hc : isDigit c = true := by
      simp only [List.all_cons, Bool.and_eq_true] at i2
      exact i2.1
    obtain ⟨m1, m2⟩ := isDigit_not_sign c hc
    have hsign : ¬ (c = byteOf '-' ∨ c = byteOf '+') := by
      rintro (e | e)
      · exact m1 e
      · exact m2 e
    have hcond : (c :: rest) ≠ [] ∧ (c :: rest).all isDigit = true := ⟨by simp, i2⟩
    unfold decimalInt
    dsimp only
    rw [if_neg hsign, if_pos hcond, if_neg m1, i3, if_pos (by omega)]

theorem decimalInt_range (s : GoString) (n : Int) (h : decimalInt s = some n) :
    -(2 ^ 63 : Int) ≤ n ∧ n ≤ 2 ^ 63 - 1 := by
  cases s with
  | nil => simp [decimalInt] at h
  | cons c rest =>
    unfold decimalInt at h
    dsimp only at h
    split_ifs at h
    all_goals
      simp only [Option.some.injEq] at h
      subst h
      assumption

theorem specPage_le (s : GoString) : specPage s ≤ 2 ^ 63 - 1 := by
  unfold specPage
  split
  · rename_i n hn
    have := decimalInt_range s n hn
    split <;> omega
  · norm_num

theorem effectivePage_eq (r : Request) :
    effectivePage r = specPage (Values.Get (Request.Query r) (ascii "page")) := by
  unfold effectivePage specPage
  have h := Atoi_refines (Values.Get (Request.Query r) (ascii "page"))
  dsimp only
  generalize Values.Get (Request.Query r) (ascii "page") = s at h ⊢
  cases hd : decimalInt s with
  | none =>
    rw [hd] at h
    rcases hA : Atoi s with ⟨v, e⟩
    rw [hA] at h
    simp only at h ⊢
    rw [if_pos (Or.inl h)]
  | some n =>
    rw [hd] at h
    simp only at h
    rw [h]
    simp only
    by_cases hn : 1 ≤ n
    · rw [if_neg (by simp; omega), if_pos hn]
    · rw [if_pos (Or.inr (by omega)), if_neg hn]

theorem effectivePageSize_eq (r : Request) :
    effectivePageSize r = specPageSize (Values.Get (Request.Query r) (ascii "pageSize")) := by
  unfold effectivePageSize specPageSize
  have h := Atoi_refines (Values.Get (Request.Query r) (ascii "pageSize"))
  dsimp only
  generalize Values.Get (Request.Query r) (ascii "pageSize") = s at h ⊢
  cases hd : decimalInt s with
  | none =>
    rw [hd] at h
    rcases hA : Atoi s with ⟨v, e⟩
    rw [hA] at h
    simp only at h ⊢
    rw [if_pos (Or.inl h)]
  | some n =>
    rw [hd] at h
    simp only at h
    rw [h]
    simp only
    by_cases hn : 1 ≤ n ∧ n ≤ 250
    · rw [if_neg (by simp; omega), if_pos hn]
    · rw [if_pos (by simp; omega), if_neg hn]

theorem specPage_pos (s : GoString) : 1 ≤ specPage s := by
  unfold specPage
  split
  · split <;> omega
  · omega

theorem specPageSize_range (s : GoString) : 1 ≤ specPageSize s ∧ specPageSize s ≤ 250 := by
  unfold specPageSize
  split
  · split <;> omega
  · omega

theorem searchHandler_calls (env : World) (tsConfig : TypesenseConfig) (x : Exchange) (r : Request)
    (hq : Values.Get (Request.Query r) (ascii "q") ≠ [])
    (hnew : env.NewRequestErr (fullURL tsConfig r) = none) :
    (searchHandler env tsConfig x r).calls =
      x.calls ++ [{ URL := fullURL tsConfig r, APIKey := tsConfig.APIKey }] := by
  simp only [searchHandler, hq, if_false, hnew]
  split
  · rfl
  · rfl
  · split
    · rfl
    · split <;> rfl

theorem searchHandler_header_frame (env : World) (tsConfig : TypesenseConfig) (x : Exchange)
    (r : Request) (k : GoString) (hw : x.w.wroteHeader = false)
    (h1 : k ≠ ascii "Content-Length") (h2 : k ≠ ascii "Content-Type")
    (h3 : k ≠ ascii "X-Content-Type-Options") :
    StringListMap.index ((searchHandler env tsConfig x r).w.response).header k
      = StringListMap.index x.w.header k := by
  have hE : ∀ (msg : GoString) (code : Int),
      StringListMap.index ((Error x.w msg code).response).header k
        = StringListMap.index x.w.header k := by
    intro msg code
    rw [Error_header _ _ _ hw]
    exact errorHeader_frame _ _ h1 h2 h3
  simp only [searchHandler]
  split
  · exact hE _ _
  · split
    · exact hE _ _
    · split
      · exact hE _ _
      · exact hE _ _
      · split
        · exact hE _ _
        · split
          · exact hE _ _
          · have hv : validStatusCode StatusOK = true := by decide
            have hb : bodyAllowedForStatus StatusOK = true := by decide
            simp only [ResponseWriter.WriteHeader, ResponseWriter.Write, ResponseWriter.response,
              hw, hv, hb, Header.Set]
            simp only [Bool.false_eq_true, if_false, if_true]
            exact index_assign_ne _ _ _ _ (Ne.symm h2)

/-- C1: a request whose `q` is missing or empty is answered by `searchHandler` with status
400 and the plain-text message `Query parameter 'q' is required.` (followed by the newline
of `http.Error`), and no request is sent to the search service, whatever the other
parameters, the configuration and the world are. -/
theorem C1_missing_query_is_rejected (env : World) (tsConfig : TypesenseConfig) (x : Exchange)
    (r : Request) (hw : x.w.wroteHeader = false)
    (hq : Values.Get (Request.Query r) (ascii "q") = []) :
    ((searchHandler env tsConfig x r).w.response).status = 400 ∧
    ((searchHandler env tsConfig x r).w.response).body
      = x.w.body ++ ascii "Query parameter 'q' is required." ++ [byteOf '\n'] ∧
    Header.Get ((searchHandler env tsConfig x r).w.response).header (ascii "Content-Type")
      = ascii "text/plain; charset=utf-8" ∧
    (searchHandler env tsConfig x r).calls = x.calls := by
  have hS : searchHandler env tsConfig x r =
      { x with w := Error x.w (ascii "Query parameter 'q' is required.") StatusBadRequest } := by
    simp only [searchHandler, hq, if_true]
  rw [hS]
  dsimp only
  rw [Error_response _ _ _ hw (by decide) (by decide)]
  exact ⟨rfl, rfl, errorHeader_contentType _, rfl⟩

/-- Witness of C1 on the request `GET /search?page=3&pageSize=20`. -/
theorem C1_missing_query_is_rejected_witness :
    Values.Get (Request.Query requestWithoutQuery) (ascii "q") = [] ∧
    ((searchHandler scenarioWorld scenarioConfig Exchange.new requestWithoutQuery).w.response).status = 400 ∧
    ((searchHandler scenarioWorld scenarioConfig Exchange.new requestWithoutQuery).w.response).body
      = ascii "Query parameter 'q' is required.\n" ∧
    (searchHandler scenarioWorld scenarioConfig Exchange.new requestWithoutQuery).calls = [] :=
  have h := C1_missing_query_is_rejected scenarioWorld scenarioConfig Exchange.new
    requestWithoutQuery rfl (by decide)
  ⟨by decide, h.1, h.2.1, h.2.2.2⟩

theorem Encode_searchParams_marks (tsConfig : TypesenseConfig) (r : Request) (q : GoString) :
    byteOf '#' ∉ Values.Encode (searchParams tsConfig r q) := by
  rw [Encode_searchParams]
  have hE : ∀ s : GoString, byteOf '#' ∉ QueryEscape s :=
    fun s => not_mem_of_plain _ _ (QueryEscape_plain s) (by decide)
  have h1 : byteOf '#' ∉ ascii "page" := by decide
  have h2 : byteOf '#' ∉ ascii "per_page" := by decide
  have h3 : byteOf '#' ∉ ascii "q" := by decide
  have h4 : byteOf '#' ∉ ascii "query_by" := by decide
  have e1 : byteOf '#' ≠ byteOf '=' := by decide
  have e2 : byteOf '#' ≠ byteOf '&' := by decide
  split <;>
    simp only [List.mem_append, List.mem_cons, not_or] <;>
    simp [h1, h2, h3, h4, e1, e2, hE]

theorem typesenseURL_marks (tsConfig : TypesenseConfig) (hHost : queryFree tsConfig.Host)
    (hPort : queryFree tsConfig.Port) (hColl : queryFree tsConfig.Collection) :
    queryFree (typesenseURL tsConfig) := by
  unfold queryFree at *
  unfold typesenseURL
  have a1 : byteOf '?' ∉ ascii "http://" ∧ byteOf '#' ∉ ascii "http://" := by decide
  have a2 : byteOf '?' ∉ ascii ":" ∧ byteOf '#' ∉ ascii ":" := by decide
  have a3 : byteOf '?' ∉ ascii "/collections/" ∧ byteOf '#' ∉ ascii "/collections/" := by decide
  have a4 : byteOf '?' ∉ ascii "/documents/search" ∧ byteOf '#' ∉ ascii "/documents/search" := by
    decide
  simp only [List.mem_append, not_or]
  tauto

theorem rawQueryOf_fullURL (tsConfig : TypesenseConfig) (r : Request)
    (hHost : queryFree tsConfig.Host) (hPort : queryFree tsConfig.Port)
    (hColl : queryFree tsConfig.Collection) :
    rawQueryOf (fullURL tsConfig r) =
      Values.Encode (searchParams tsConfig r (Values.Get (Request.Query r) (ascii "q"))) := by
  have hU := typesenseURL_marks tsConfig hHost hPort hColl
  have hE := Encode_searchParams_marks tsConfig r (Values.Get (Request.Query r) (ascii "q"))
  have hform : fullURL tsConfig r = typesenseURL tsConfig ++ byteOf '?' ::
      Values.Encode (searchParams tsConfig r (Values.Get (Request.Query r) (ascii "q"))) := by
    unfold fullURL
    have : ascii "?" = [byteOf '?'] := rfl
    rw [this]
    simp
  have hhash : byteOf '#' ∉ fullURL tsConfig r := by
    rw [hform]
    simp only [List.mem_append, List.mem_cons, not_or]
    exact ⟨hU.2, by decide, hE⟩
  unfold rawQueryOf
  rw [Cut_absent _ _ hhash]
  dsimp only
  rw [hform, Cut_append _ _ _ hU.1]

theorem decoded_query (tsConfig : TypesenseConfig) (r : Request)
    (hHost : queryFree tsConfig.Host) (hPort : queryFree tsConfig.Port)
    (hColl : queryFree tsConfig.Collection) :
    ParseQuery (rawQueryOf (fullURL tsConfig r)) =
      ([(ascii "page", [Itoa (effectivePage r)]),
        (ascii "per_page", [Itoa (effectivePageSize r)]),
        (ascii "q", [Values.Get (Request.Query r) (ascii "q")])]
        ++ (if tsConfig.SearchByFields ≠ [] then [(ascii "query_by", [tsConfig.SearchByFields])]
            else []), none) := by
  rw [rawQueryOf_fullURL tsConfig r hHost hPort hColl, ParseQuery_Encode_searchParams]

/-- C2, as amended: for every configuration whose host, port and collection hold neither `?`
nor `#`, and every request with a non-empty `q`, the query string of the URL sent upstream
holds `page` exactly once, and its value read as a decimal integer is the value of the
request's `page` parameter when that parses as a decimal integer of at least 1, and 1 in
every other case. The request is never rejected on account of `page`: when the URL is
accepted, exactly one request goes upstream, to that URL. -/
theorem C2_page_sent_upstream (env : World) (tsConfig : TypesenseConfig) (x : Exchange)
    (r : Request) (hq : Values.Get (Request.Query r) (ascii "q") ≠ [])
    (hHost : queryFree tsConfig.Host) (hPort : queryFree tsConfig.Port)
    (hColl : queryFree tsConfig.Collection) :
    effectivePage r = specPage (Values.Get (Request.Query r) (ascii "page")) ∧
    StringListMap.index (ParseQuery (rawQueryOf (fullURL tsConfig r))).1 (ascii "page")
      = [Itoa (effectivePage r)] ∧
    decimalInt (Values.Get (ParseQuery (rawQueryOf (fullURL tsConfig r))).1 (ascii "page"))
      = some (specPage (Values.Get (Request.Query r) (ascii "page"))) ∧
    (env.NewRequestErr (fullURL tsConfig r) = none →
      (searchHandler env tsConfig x r).calls =
        x.calls ++ [{ URL := fullURL tsConfig r, APIKey := tsConfig.APIKey }]) := by
  have hdec := decoded_query tsConfig r hHost hPort hColl
  have hidx : StringListMap.index (ParseQuery (rawQueryOf (fullURL tsConfig r))).1 (ascii "page")
      = [Itoa (effectivePage r)] := by
    rw [hdec]; rfl
  refine ⟨effectivePage_eq r, hidx, ?_, ?_⟩
  · unfold Values.Get
    rw [hidx]
    dsimp only
    rw [effectivePage_eq]
    exact Itoa_decimal _ (by have := specPage_pos (Values.Get (Request.Query r) (ascii "page")); omega)
      (specPage_le _)
  · intro hnew
    exact searchHandler_calls env tsConfig x r hq hnew

/-- Witness of C2 in the scenario: the URL sent holds `page=2`. -/
theorem C2_page_sent_upstream_witness :
    Values.Get (Request.Query scenarioRequest) (ascii "q") ≠ [] ∧
    queryFree scenarioConfig.Host ∧ queryFree scenarioConfig.Port ∧
    queryFree scenarioConfig.Collection ∧
    specPage (Values.Get (Request.Query scenarioRequest) (ascii "page")) = 2 ∧
    Values.Get (ParseQuery (rawQueryOf (fullURL scenarioConfig scenarioRequest))).1 (ascii "page")
      = ascii "2" ∧
    decimalInt (Values.Get (ParseQuery (rawQueryOf (fullURL scenarioConfig scenarioRequest))).1
      (ascii "page")) = some 2 :=
  have hHost : queryFree scenarioConfig.Host := by unfold queryFree; decide
  have hPort : queryFree scenarioConfig.Port := by unfold queryFree; decide
  have hColl : queryFree scenarioConfig.Collection := by unfold queryFree; decide
  have h := C2_page_sent_upstream scenarioWorld scenarioConfig Exchange.new scenarioRequest
    (by decide) hHost hPort hColl
  ⟨by decide, hHost, hPort, hColl, by decide, by decide, h.2.2.1.trans (by decide)⟩

/-- Counterexample to C2 as stated: the request of the scenario asks for page 2; with the
collection name `a?b` the one request sent upstream goes to a URL whose query string has no
`page` (its first key is `b/documents/search?page`), and with the collection name `a#b` the
URL sent has no query string at all. -/
theorem C2_counterexample :
    Values.Get (Request.Query scenarioRequest) (ascii "q") ≠ [] ∧
    specPage (Values.Get (Request.Query scenarioRequest) (ascii "page")) = 2 ∧
    (searchHandler scenarioWorld markedConfig Exchange.new scenarioRequest).calls =
      [{ URL := ascii "http://localhost:8108/collections/a?b/documents/search?page=2&per_page=5&q=tolkien",
         APIKey := ascii "xyz" }] ∧
    StringListMap.index (ParseQuery (rawQueryOf (ascii
      "http://localhost:8108/collections/a?b/documents/search?page=2&per_page=5&q=tolkien"))).1
      (ascii "page") = [] ∧
    decimalInt (Values.Get (ParseQuery (rawQueryOf (fullURL markedConfig scenarioRequest))).1
      (ascii "page")) = none ∧
    (searchHandler scenarioWorld fragmentConfig Exchange.new scenarioRequest).calls =
      [{ URL := ascii "http://localhost:8108/collections/a#b/documents/search?page=2&per_page=5&q=tolkien",
         APIKey := ascii "xyz" }] ∧
    rawQueryOf (fullURL fragmentConfig scenarioRequest) = [] := by
  decide

/-- C3, as amended: for every configuration whose host, port and collection hold neither `?`
nor `#`, and every request with a non-empty `q`, the query string of the URL sent upstream
holds `per_page` exactly once, and its value read as a decimal integer is the value of the
request's `pageSize` parameter when that parses as a decimal integer in `[1, 250]`, and 10 in
every other case (a value above 250 gives 10, it is not clamped to 250); the page size used
always lies in `[1, 250]`. -/
theorem C3_page_size_sent_upstream (env : World) (tsConfig : TypesenseConfig) (x : Exchange)
    (r : Request) (hq : Values.Get (Request.Query r) (ascii "q") ≠ [])
    (hHost : queryFree tsConfig.Host) (hPort : queryFree tsConfig.Port)
    (hColl : queryFree tsConfig.Collection) :
    effectivePageSize r = specPageSize (Values.Get (Request.Query r) (ascii "pageSize")) ∧
    (∀ n : Int, decimalInt (Values.Get (Request.Query r) (ascii "pageSize")) = some n → 250 < n →
      effectivePageSize r = 10) ∧
    (1 ≤ effectivePageSize r ∧ effectivePageSize r ≤ 250) ∧
    StringListMap.index (ParseQuery (rawQueryOf (fullURL tsConfig r))).1 (ascii "per_page")
      = [Itoa (effectivePageSize r)] ∧
    decimalInt (Values.Get (ParseQuery (rawQueryOf (fullURL tsConfig r))).1 (ascii "per_page"))
      = some (specPageSize (Values.Get (Request.Query r) (ascii "pageSize"))) ∧
    (env.NewRequestErr (fullURL tsConfig r) = none →
      (searchHandler env tsConfig x r).calls =
        x.calls ++ [{ URL := fullURL tsConfig r, APIKey := tsConfig.APIKey }]) := by
  have hdec := decoded_query tsConfig r hHost hPort hColl
  have hidx : StringListMap.index (ParseQuery (rawQueryOf (fullURL tsConfig r))).1
      (ascii "per_page") = [Itoa (effectivePageSize r)] := by
    rw [hdec]; rfl
  have hrange := specPageSize_range (Values.Get (Request.Query r) (ascii "pageSize"))
  refine ⟨effectivePageSize_eq r, ?_, ?_, hidx, ?_, ?_⟩
  · intro n hn hbig
    rw [effectivePageSize_eq, specPageSize, hn]
    simp only
    rw [if_neg (by omega)]
  · rw [effectivePageSize_eq]; exact hrange
  · unfold Values.Get
    rw [hidx]
    dsimp only
    rw [effectivePageSize_eq]
    exact Itoa_decimal _ (by omega) (by omega)
  · intro hnew
    exact searchHandler_calls env tsConfig x r hq hnew

/-- Witness of C3 in the scenario: the URL sent holds `per_page=5`. -/
theorem C3_page_size_sent_upstream_witness :
    Values.Get (Request.Query scenarioRequest) (ascii "q") ≠ [] ∧
    queryFree scenarioConfig.Host ∧ queryFree scenarioConfig.Port ∧
    queryFree scenarioConfig.Collection ∧
    specPageSize (Values.Get (Request.Query scenarioRequest) (ascii "pageSize")) = 5 ∧
    Values.Get (ParseQuery (rawQueryOf (fullURL scenarioConfig scenarioRequest))).1
      (ascii "per_page") = ascii "5" ∧
    decimalInt (Values.Get (ParseQuery (rawQueryOf (fullURL scenarioConfig scenarioRequest))).1
      (ascii "per_page")) = some 5 :=
  have hHost : queryFree scenarioConfig.Host := by unfold queryFree; decide
  have hPort : queryFree scenarioConfig.Port := by unfold queryFree; decide
  have hColl : queryFree scenarioConfig.Collection := by unfold queryFree; decide
  have h := C3_page_size_sent_upstream scenarioWorld scenarioConfig Exchange.new scenarioRequest
    (by decide) hHost hPort hColl
  ⟨by decide, hHost, hPort, hColl, by decide, by decide, h.2.2.2.2.1.trans (by decide)⟩

/-- Counterexample to C3 as stated: the request of the scenario asks for the page size 5; with
the collection name `a#b` the URL sent upstream has no query string, so no `per_page` is sent,
and with the collection name `a?per_page=7&b` the query string of the URL sent holds `per_page`
twice, first as 7. -/
theorem C3_counterexample :
    Values.Get (Request.Query scenarioRequest) (ascii "q") ≠ [] ∧
    specPageSize (Values.Get (Request.Query scenarioRequest) (ascii "pageSize")) = 5 ∧
    (searchHandler scenarioWorld fragmentConfig Exchange.new scenarioRequest).calls =
      [{ URL := fullURL fragmentConfig scenarioRequest, APIKey := ascii "xyz" }] ∧
    fullURL fragmentConfig scenarioRequest =
      ascii "http://localhost:8108/collections/a#b/documents/search?page=2&per_page=5&q=tolkien" ∧
    StringListMap.index (ParseQuery (rawQueryOf (fullURL fragmentConfig scenarioRequest))).1
      (ascii "per_page") = [] ∧
    fullURL shadowConfig scenarioRequest =
      ascii "http://localhost:8108/collections/a?per_page=7&b/documents/search?page=2&per_page=5&q=tolkien" ∧
    StringListMap.index (ParseQuery (rawQueryOf (fullURL shadowConfig scenarioRequest))).1
      (ascii "per_page") = [ascii "7", ascii "5"] ∧
    Values.Get (ParseQuery (rawQueryOf (fullURL shadowConfig scenarioRequest))).1
      (ascii "per_page") = ascii "7" := by
  decide

/-- C4, as amended: for every configuration whose host, port and collection hold neither `?`
nor `#`, and every request with a non-empty `q`, decoding the query string of the URL that
`searchHandler` builds succeeds and yields exactly the keys `page`, `per_page`, `q`, and
`query_by` if and only if `SearchByFields` is not empty, each once, with the decimal page, the
decimal page size, the request's `q` and the configured field list as values; that URL is the
one the request to the search service goes to. -/
theorem C4_upstream_query_decodes (env : World) (tsConfig : TypesenseConfig) (x : Exchange)
    (r : Request)
    (hq : Values.Get (Request.Query r) (ascii "q") ≠ [])
    (hHost : queryFree tsConfig.Host) (hPort : queryFree tsConfig.Port)
    (hColl : queryFree tsConfig.Collection) :
    ParseQuery (rawQueryOf (fullURL tsConfig r)) =
      ([(ascii "page", [Itoa (effectivePage r)]),
        (ascii "per_page", [Itoa (effectivePageSize r)]),
        (ascii "q", [Values.Get (Request.Query r) (ascii "q")])]
        ++ (if tsConfig.SearchByFields ≠ [] then [(ascii "query_by", [tsConfig.SearchByFields])]
            else []), none) ∧
    1 ≤ effectivePage r ∧ 1 ≤ effectivePageSize r ∧ effectivePageSize r ≤ 250 ∧
    (env.NewRequestErr (fullURL tsConfig r) = none →
      (searchHandler env tsConfig x r).calls =
        x.calls ++ [{ URL := fullURL tsConfig r, APIKey := tsConfig.APIKey }]) := by
  refine ⟨?_, ?_, ?_, ?_, ?_⟩
  · rw [rawQueryOf_fullURL tsConfig r hHost hPort hColl, ParseQuery_Encode_searchParams]
  · rw [effectivePage_eq]; exact specPage_pos _
  · rw [effectivePageSize_eq]; exact (specPageSize_range _).1
  · rw [effectivePageSize_eq]; exact (specPageSize_range _).2
  · intro hnew
    exact searchHandler_calls env tsConfig x r hq hnew

/-- Witness of C4 on the configuration and the request of the scenario. -/
theorem C4_upstream_query_decodes_witness :
    Values.Get (Request.Query scenarioRequest) (ascii "q") ≠ [] ∧
    queryFree scenarioConfig.Host ∧ queryFree scenarioConfig.Port ∧
    queryFree scenarioConfig.Collection ∧
    ParseQuery (rawQueryOf (fullURL scenarioConfig scenarioRequest)) =
      ([(ascii "page", [ascii "2"]), (ascii "per_page", [ascii "5"]),
        (ascii "q", [ascii "tolkien"]), (ascii "query_by", [ascii "title,author"])], none) :=
  have hHost : queryFree scenarioConfig.Host := by unfold queryFree; decide
  have hPort : queryFree scenarioConfig.Port := by unfold queryFree; decide
  have hColl : queryFree scenarioConfig.Collection := by unfold queryFree; decide
  have h := C4_upstream_query_decodes scenarioWorld scenarioConfig Exchange.new scenarioRequest
    (by decide) hHost hPort hColl
  ⟨by decide, hHost, hPort, hColl, h.1.trans (by decide)⟩

/-- Counterexample to C4 as stated: with the collection name `a?b` the query string of the
upstream URL begins inside the path, so its decoding has no key `page` and has the key
`b/documents/search?page` instead. -/
theorem C4_counterexample :
    Values.Get (Request.Query scenarioRequest) (ascii "q") ≠ [] ∧
    fullURL markedConfig scenarioRequest
      = ascii "http://localhost:8108/collections/a?b/documents/search?page=2&per_page=5&q=tolkien" ∧
    ParseQuery (rawQueryOf (fullURL markedConfig scenarioRequest)) =
      ([(ascii "b/documents/search?page", [ascii "2"]), (ascii "per_page", [ascii "5"]),
        (ascii "q", [ascii "tolkien"])], none) ∧
    StringListMap.index (ParseQuery (rawQueryOf (fullURL markedConfig scenarioRequest))).1
      (ascii "page") = [] := by
  decide

/-- C5, as amended: in the scenario (host `localhost`, port `8108`, API key `xyz`, collection
`books`, search fields `title,author`, request `GET /search?q=tolkien&page=2&pageSize=5`)
`searchHandler` sends exactly one request upstream, with the API key `xyz`, to the URL whose
parameters stand in the order of their keys, `page`, `per_page`, `q`, `query_by`, as
`Values.Encode` writes them. -/
theorem C5_scenario_upstream_url (env : World)
    (hnew : env.NewRequestErr (fullURL scenarioConfig scenarioRequest) = none) :
    (searchHandler env scenarioConfig Exchange.new scenarioRequest).calls =
      [{ URL := ascii "http://localhost:8108/collections/books/documents/search?page=2&per_page=5&q=tolkien&query_by=title%2Cauthor",
         APIKey := ascii "xyz" }] := by
  rw [searchHandler_calls env scenarioConfig Exchange.new scenarioRequest (by decide) hnew]
  have hU : fullURL scenarioConfig scenarioRequest = ascii "http://localhost:8108/collections/books/documents/search?page=2&per_page=5&q=tolkien&query_by=title%2Cauthor" := by
    decide
  rw [hU]
  rfl

/-- Witness of C5 in the world of the scenario. -/
theorem C5_scenario_upstream_url_witness :
    scenarioWorld.NewRequestErr (fullURL scenarioConfig scenarioRequest) = none ∧
    (searchHandler scenarioWorld scenarioConfig Exchange.new scenarioRequest).calls =
      [{ URL := ascii "http://localhost:8108/collections/books/documents/search?page=2&per_page=5&q=tolkien&query_by=title%2Cauthor",
         APIKey := ascii "xyz" }] :=
  ⟨rfl, C5_scenario_upstream_url scenarioWorld rfl⟩

/-- Counterexample to C5 as stated: the URL that `searchHandler` builds in the scenario is
not the string with the parameters in the order `q`, `per_page`, `page`, `query_by`, and the
one request sent in the world of the scenario does not go to that string. -/
theorem C5_counterexample :
    fullURL scenarioConfig scenarioRequest ≠
      ascii "http://localhost:8108/collections/books/documents/search?q=tolkien&per_page=5&page=2&query_by=title%2Cauthor" ∧
    (searchHandler scenarioWorld scenarioConfig Exchange.new scenarioRequest).calls ≠
      [{ URL := ascii "http://localhost:8108/collections/books/documents/search?q=tolkien&per_page=5&page=2&query_by=title%2Cauthor",
         APIKey := ascii "xyz" }] := by
  decide

theorem searchHandler_forwards_status (env : World) (tsConfig : TypesenseConfig) (x : Exchange)
    (r : Request) (s : Int) (body : GoString) (hw : x.w.wroteHeader = false)
    (hq : Values.Get (Request.Query r) (ascii "q") ≠ [])
    (hnew : env.NewRequestErr (fullURL tsConfig r) = none)
    (hdo : env.Do { URL := fullURL tsConfig r, APIKey := tsConfig.APIKey }
      = .response s (.ok body))
    (hs : s ≠ 200) (hv : validStatusCode s = true) (hb : bodyAllowedForStatus s = true) :
    ((searchHandler env tsConfig x r).w.response).status = s ∧
    ((searchHandler env tsConfig x r).w.response).body
      = x.w.body ++ ascii "Typesense search failed: " ++ body ++ [byteOf '\n'] ∧
    (searchHandler env tsConfig x r).log
      = x.log ++ [LogLine.makingRequest (fullURL tsConfig r), LogLine.non200Status s body] := by
  have hs2 : s ≠ StatusOK := hs
  have hS : searchHandler env tsConfig x r =
      { w := Error x.w (ascii "Typesense search failed: " ++ body) s,
        log := x.log ++ [LogLine.makingRequest (fullURL tsConfig r)] ++ [LogLine.non200Status s body],
        calls := x.calls ++ [{ URL := fullURL tsConfig r, APIKey := tsConfig.APIKey }] } := by
    simp only [searchHandler, hq, if_false, hnew, hdo, hs2, ne_eq, not_false_eq_true, if_true]
  rw [hS]
  dsimp only
  rw [Error_response _ _ _ hw hv hb]
  refine ⟨rfl, ?_, ?_⟩
  · simp
  · simp

/-- C6, the code at its failing inputs: the request of the scenario has a non-empty `q`, the
call succeeds at transport level and the body `boom` is read. When the upstream status is 99
(status line `HTTP/1.1 099 x`), `http.Error` is handed the code 99, `WriteHeader` panics, and
no status, no header and no byte of the upstream body reach the caller. When the upstream
status is 204, the status is forwarded and the body is dropped. With the status 404 the same
lines forward both, as line 152 says they do. -/
theorem C6_status_not_forwarded :
    Values.Get (Request.Query scenarioRequest) (ascii "q") ≠ [] ∧
    (searchHandler invalidStatusWorld scenarioConfig Exchange.new scenarioRequest).w.panicked
      = true ∧
    (searchHandler invalidStatusWorld scenarioConfig Exchange.new scenarioRequest).w.wroteHeader
      = false ∧
    (searchHandler invalidStatusWorld scenarioConfig Exchange.new scenarioRequest).w.body = [] ∧
    (searchHandler invalidStatusWorld scenarioConfig Exchange.new scenarioRequest).log =
      [LogLine.makingRequest (fullURL scenarioConfig scenarioRequest),
        LogLine.non200Status 99 (ascii "boom")] ∧
    (searchHandler noContentWorld scenarioConfig Exchange.new scenarioRequest).w.panicked
      = false ∧
    ((searchHandler noContentWorld scenarioConfig Exchange.new scenarioRequest).w.response).status
      = 204 ∧
    ((searchHandler noContentWorld scenarioConfig Exchange.new scenarioRequest).w.response).body
      = [] ∧
    ((searchHandler notFoundWorld scenarioConfig Exchange.new scenarioRequest).w.response).status
      = 404 ∧
    ((searchHandler notFoundWorld scenarioConfig Exchange.new scenarioRequest).w.response).body
      = ascii "Typesense search failed: Not Found\n" :=
  ⟨by decide, by decide, by decide, by decide, rfl, by decide, by decide, by decide, by decide,
    by decide⟩

/-- C9: when the request has a non-empty `q` and the call to the search service returns a
transport error, `searchHandler` answers with status 503 and the message
`Failed to connect to search service.` (and the newline of `http.Error`), which does not
depend on the error; the error goes to the log only, and the search service was called
exactly once. -/
theorem C9_transport_error_is_503 (env : World) (tsConfig : TypesenseConfig) (x : Exchange)
    (r : Request) (err : GoError) (hw : x.w.wroteHeader = false)
    (hq : Values.Get (Request.Query r) (ascii "q") ≠ [])
    (hnew : env.NewRequestErr (fullURL tsConfig r) = none)
    (hdo : env.Do { URL := fullURL tsConfig r, APIKey := tsConfig.APIKey }
      = .transportError err) :
    ((searchHandler env tsConfig x r).w.response).status = 503 ∧
    ((searchHandler env tsConfig x r).w.response).body
      = x.w.body ++ ascii "Failed to connect to search service." ++ [byteOf '\n'] ∧
    (searchHandler env tsConfig x r).calls
      = x.calls ++ [{ URL := fullURL tsConfig r, APIKey := tsConfig.APIKey }] ∧
    (searchHandler env tsConfig x r).log
      = x.log ++ [LogLine.makingRequest (fullURL tsConfig r), LogLine.errorMakingRequest err] := by
  have hS : searchHandler env tsConfig x r =
      { w := Error x.w (ascii "Failed to connect to search service.") StatusServiceUnavailable,
        log := x.log ++ [LogLine.makingRequest (fullURL tsConfig r)]
          ++ [LogLine.errorMakingRequest err],
        calls := x.calls ++ [{ URL := fullURL tsConfig r, APIKey := tsConfig.APIKey }] } := by
    simp only [searchHandler, hq, if_false, hnew, hdo]
  rw [hS]
  dsimp only
  rw [Error_response _ _ _ hw (by decide) (by decide)]
  refine ⟨rfl, rfl, rfl, ?_⟩
  simp

/-- Witness of C9 in the world whose search service refuses the connection. -/
theorem C9_transport_error_is_503_witness :
    ((searchHandler unreachableWorld scenarioConfig Exchange.new scenarioRequest).w.response).status
      = 503 ∧
    ((searchHandler unreachableWorld scenarioConfig Exchange.new scenarioRequest).w.response).body
      = ascii "Failed to connect to search service.\n" ∧
    (searchHandler unreachableWorld scenarioConfig Exchange.new scenarioRequest).calls.length = 1 :=
  have h := C9_transport_error_is_503 unreachableWorld scenarioConfig Exchange.new scenarioRequest
    (ascii "dial tcp 127.0.0.1:8108: connect: connection refused") rfl (by decide) rfl rfl
  ⟨h.1, h.2.1, by rw [h.2.2.1]; rfl⟩

theorem corsMiddleware_preflight (next : Handler) (r : Request) (hm : r.Method = ascii "OPTIONS") :
    corsMiddleware next Exchange.new r =
      { w := { header := corsHeader, wroteHeader := true, status := StatusOK,
               sentHeader := corsHeader, body := [], panicked := false },
        log := [], calls := [] } := by
  simp only [corsMiddleware, hm, if_true]
  rfl

theorem corsMiddleware_pass (next : Handler) (r : Request) (hm : r.Method ≠ ascii "OPTIONS") :
    corsMiddleware next Exchange.new r =
      next { w := { header := corsHeader, wroteHeader := false, status := 0,
                    sentHeader := [], body := [], panicked := false },
             log := [], calls := [] } r := by
  simp only [corsMiddleware, hm, if_false]
  rfl

/-- C8: for a request with method `OPTIONS`, whatever its path and query, the handler that
`corsMiddleware` builds answers with status 200 and an empty body, with the four headers
`Access-Control-Allow-Origin`, `Access-Control-Allow-Methods`, `Access-Control-Allow-Headers`
and `Access-Control-Max-Age` set, and it does not run the wrapped handler: the outcome is the
same for every wrapped handler, nothing is logged and nothing is sent upstream. -/
theorem C8_preflight_short_circuit (next other : Handler) (r : Request)
    (hm : r.Method = ascii "OPTIONS") :
    ((corsMiddleware next Exchange.new r).w.response).status = 200 ∧
    ((corsMiddleware next Exchange.new r).w.response).body = [] ∧
    ((corsMiddleware next Exchange.new r).w.response).header =
      [ (ascii "Access-Control-Allow-Origin", [ascii "http://localhost:3000"]),
        (ascii "Access-Control-Allow-Methods", [ascii "GET, POST, OPTIONS"]),
        (ascii "Access-Control-Allow-Headers", [ascii "Content-Type, X-Typesense-Api-Key"]),
        (ascii "Access-Control-Max-Age", [ascii "86400"]) ] ∧
    (corsMiddleware next Exchange.new r).calls = [] ∧
    (corsMiddleware next Exchange.new r).log = [] ∧
    corsMiddleware next Exchange.new r = corsMiddleware other Exchange.new r := by
  rw [corsMiddleware_preflight next r hm, corsMiddleware_preflight other r hm]
  exact ⟨rfl, rfl, rfl, rfl, rfl, rfl⟩

/-- Witness of C8 on `OPTIONS /search?q=tolkien`, with the search handler of the scenario as
the wrapped handler. -/
theorem C8_preflight_short_circuit_witness :
    preflightRequest.Method = ascii "OPTIONS" ∧
    ((server scenarioWorld scenarioConfig Exchange.new preflightRequest).w.response).status = 200 ∧
    ((server scenarioWorld scenarioConfig Exchange.new preflightRequest).w.response).body = [] ∧
    (server scenarioWorld scenarioConfig Exchange.new preflightRequest).calls = [] :=
  have h := C8_preflight_short_circuit (searchHandler scenarioWorld scenarioConfig)
    (fun x _ => x) preflightRequest rfl
  ⟨rfl, h.1, h.2.1, h.2.2.2.1⟩

/-- C10: for every world (search service not contacted, transport error, read error, status
other than 200, body that does not parse, success), every configuration and every request of
any method, the response of `corsMiddleware` around `searchHandler` carries the four headers
`Access-Control-Allow-Origin`, `Access-Control-Allow-Methods`, `Access-Control-Allow-Headers`
and `Access-Control-Max-Age`, each with the single value the middleware gave it. -/
theorem C10_cors_headers_on_every_response (env : World) (tsConfig : TypesenseConfig)
    (r : Request) :
    StringListMap.index ((server env tsConfig Exchange.new r).w.response).header
        (ascii "Access-Control-Allow-Origin") = [ascii "http://localhost:3000"] ∧
    StringListMap.index ((server env tsConfig Exchange.new r).w.response).header
        (ascii "Access-Control-Allow-Methods") = [ascii "GET, POST, OPTIONS"] ∧
    StringListMap.index ((server env tsConfig Exchange.new r).w.response).header
        (ascii "Access-Control-Allow-Headers") = [ascii "Content-Type, X-Typesense-Api-Key"] ∧
    StringListMap.index ((server env tsConfig Exchange.new r).w.response).header
        (ascii "Access-Control-Max-Age") = [ascii "86400"] := by
  unfold server
  by_cases hm : r.Method = ascii "OPTIONS"
  · rw [corsMiddleware_preflight _ r hm]
    exact ⟨by decide, by decide, by decide, by decide⟩
  · rw [corsMiddleware_pass _ r hm]
    refine ⟨?_, ?_, ?_, ?_⟩
    · rw [searchHandler_header_frame env tsConfig _ r _ rfl (by decide) (by decide) (by decide)]
      decide
    · rw [searchHandler_header_frame env tsConfig _ r _ rfl (by decide) (by decide) (by decide)]
      decide
    · rw [searchHandler_header_frame env tsConfig _ r _ rfl (by decide) (by decide) (by decide)]
      decide
    · rw [searchHandler_header_frame env tsConfig _ r _ rfl (by decide) (by decide) (by decide)]
      decide

theorem encodeResponse_fields (env : World) (t : TypesenseSearchResponse) :
    encodeResponse env t = .object (responseFields.map (fun f => (f.tag, fieldDoc env t f))) :=
  rfl

theorem decodeResponseMember_frame (env : World) (t t1 : TypesenseSearchResponse)
    (key : GoString) (x : JSON) (f : ResponseField)
    (hkey : findField responseFields ResponseField.tag key ≠ some f)
    (hdec : decodeResponseMember env t key x = some t1) :
    fieldDoc env t1 f = fieldDoc env t f := by
  unfold decodeResponseMember at hdec
  cases hfind : findField responseFields ResponseField.tag key with
  | none =>
    rw [hfind] at hdec
    simp only [Option.some.injEq] at hdec
    rw [hdec]
  | some g =>
    rw [hfind] at hdec hkey
    have hne : g ≠ f := fun e => hkey (by rw [e])
    cases g <;> simp only [Option.map_eq_some'] at hdec <;> obtain ⟨v, _, rfl⟩ := hdec <;>
      cases f <;> first | rfl | exact absurd rfl hne

theorem decodeResponseMembers_frame (env : World) (members : List (GoString × JSON))
    (t t1 : TypesenseSearchResponse) (f : ResponseField)
    (hkeys : ∀ kv ∈ members, findField responseFields ResponseField.tag kv.1 ≠ some f)
    (hdec : decodeResponseMembers env members t = some t1) :
    fieldDoc env t1 f = fieldDoc env t f := by
  induction members generalizing t with
  | nil =>
    simp only [decodeResponseMembers, Option.some.injEq] at hdec
    rw [hdec]
  | cons kv rest ih =>
    obtain ⟨key, x⟩ := kv
    simp only [decodeResponseMembers] at hdec
    cases hstep : decodeResponseMember env t key x with
    | none => rw [hstep] at hdec; cases hdec
    | some t2 =>
      rw [hstep] at hdec
      have h1 := decodeResponseMember_frame env t t2 key x f
        (hkeys (key, x) (List.mem_cons_self _ _)) hstep
      have h2 := ih t2 (fun kv hkv => hkeys kv (List.mem_cons_of_mem _ hkv)) hdec
      rw [h2, h1]

theorem fieldDoc_zero (env : World) (f : ResponseField) :
    fieldDoc env TypesenseSearchResponse.zero f = absentDoc f := by
  cases f <;> rfl

/-- C7, as amended: when the request has a non-empty `q` and the search service answers 200
with a body that `json.Unmarshal` accepts as a `TypesenseSearchResponse`, `searchHandler`
answers with status 200, `Content-Type: application/json`, and a body that is the JSON text of
the parsed struct and a newline. That document is always an object with the seven members
`facet_counts`, `found`, `hits`, `out_of`, `page`, `request_params`, `search_time_ms`, in this
order; a field that no member of the upstream object names is not left out, it is written as
`null` (`facet_counts`, `hits`, `request_params`) or `0` (the four counters). -/
theorem C7_success_reserialises_struct (env : World) (tsConfig : TypesenseConfig) (x : Exchange)
    (r : Request) (body : GoString) (t : TypesenseSearchResponse)
    (hw : x.w.wroteHeader = false)
    (hq : Values.Get (Request.Query r) (ascii "q") ≠ [])
    (hnew : env.NewRequestErr (fullURL tsConfig r) = none)
    (hdo : env.Do { URL := fullURL tsConfig r, APIKey := tsConfig.APIKey }
      = .response 200 (.ok body))
    (hparse : Unmarshal env body = .ok t) :
    ((searchHandler env tsConfig x r).w.response).status = 200 ∧
    Header.Get ((searchHandler env tsConfig x r).w.response).header (ascii "Content-Type")
      = ascii "application/json" ∧
    ((searchHandler env tsConfig x r).w.response).body
      = x.w.body ++ env.textJSON (encodeResponse env t) ++ [byteOf '\n'] ∧
    encodeResponse env t = .object (responseFields.map (fun f => (f.tag, fieldDoc env t f))) ∧
    JSON.memberNames (encodeResponse env t) =
      [ascii "facet_counts", ascii "found", ascii "hits", ascii "out_of", ascii "page",
        ascii "request_params", ascii "search_time_ms"] ∧
    (∀ members : List (GoString × JSON), env.scanJSON body = some (.object members) →
      ∀ f : ResponseField,
        (∀ kv ∈ members, findField responseFields ResponseField.tag kv.1 ≠ some f) →
        fieldDoc env t f = absentDoc f) := by
  have hS : searchHandler env tsConfig x r =
      { w := ResponseWriter.Write
          (ResponseWriter.WriteHeader
            { x.w with header := Header.Set x.w.header (ascii "Content-Type") (ascii "application/json") }
            StatusOK)
          (env.textJSON (encodeResponse env t) ++ [byteOf '\n']),
        log := x.log ++ [LogLine.makingRequest (fullURL tsConfig r)],
        calls := x.calls ++ [{ URL := fullURL tsConfig r, APIKey := tsConfig.APIKey }] } := by
    have h200 : ¬ ((200 : Int) ≠ StatusOK) := by decide
    simp only [searchHandler, hq, if_false, hnew, hdo, h200, hparse]
  rw [hS]
  refine ⟨?_, ?_, ?_, rfl, rfl, ?_⟩
  · simp [ResponseWriter.WriteHeader, ResponseWriter.Write, ResponseWriter.response, hw,
      StatusOK, validStatusCode, bodyAllowedForStatus]
  · simp only [ResponseWriter.WriteHeader, ResponseWriter.Write, ResponseWriter.response, hw,
      Bool.false_eq_true, if_false, if_true, Header.Get, Header.Set,
      show validStatusCode StatusOK = true from by decide,
      show bodyAllowedForStatus StatusOK = true from by decide]
    rw [index_assign_same]
  · simp [ResponseWriter.WriteHeader, ResponseWriter.Write, ResponseWriter.response, hw,
      StatusOK, validStatusCode, bodyAllowedForStatus]
  · intro members hscan f hkeys
    unfold Unmarshal at hparse
    rw [hscan] at hparse
    simp only [decodeResponse] at hparse
    cases hdec : decodeResponseMembers env members TypesenseSearchResponse.zero with
    | none => rw [hdec] at hparse; cases hparse
    | some t1 =>
      rw [hdec] at hparse
      simp only [Except.ok.injEq] at hparse
      subst hparse
      rw [decodeResponseMembers_frame env members _ _ f hkeys hdec, fieldDoc_zero]

/-- Witness of C7 in the scenario: the response to `GET /search?q=tolkien&page=2&pageSize=5`. -/
theorem C7_success_reserialises_struct_witness :
    Unmarshal scenarioWorld scenarioBody = .ok scenarioParsed ∧
    ((searchHandler scenarioWorld scenarioConfig Exchange.new scenarioRequest).w.response).status
      = 200 ∧
    ((searchHandler scenarioWorld scenarioConfig Exchange.new scenarioRequest).w.response).body
      = scenarioResponseBody :=
  have h := C7_success_reserialises_struct scenarioWorld scenarioConfig Exchange.new
    scenarioRequest scenarioBody scenarioParsed rfl (by decide) rfl rfl rfl
  ⟨rfl, h.1, h.2.2.1.trans (by decide)⟩

/-- Counterexample to C7 as stated: in the scenario the upstream document has neither
`facet_counts` nor `request_params`, and the response of `searchHandler` has both, as `null`;
the response is not the upstream document. -/
theorem C7_counterexample :
    scenarioWorld.Do { URL := fullURL scenarioConfig scenarioRequest, APIKey := ascii "xyz" }
      = .response 200 (.ok scenarioBody) ∧
    scenarioWorld.scanJSON scenarioBody = some scenarioDocument ∧
    renderJSON scenarioDocument = scenarioBody ∧
    Unmarshal scenarioWorld scenarioBody = .ok scenarioParsed ∧
    ((searchHandler scenarioWorld scenarioConfig Exchange.new scenarioRequest).w.response).status
      = 200 ∧
    ((searchHandler scenarioWorld scenarioConfig Exchange.new scenarioRequest).w.response).body
      = renderJSON (encodeResponse scenarioWorld scenarioParsed) ++ [byteOf '\n'] ∧
    ((searchHandler scenarioWorld scenarioConfig Exchange.new scenarioRequest).w.response).body
      = scenarioResponseBody ∧
    JSON.memberNames scenarioDocument =
      [ascii "found", ascii "hits", ascii "out_of", ascii "page", ascii "search_time_ms"] ∧
    JSON.memberNames (encodeResponse scenarioWorld scenarioParsed) =
      [ascii "facet_counts", ascii "found", ascii "hits", ascii "out_of", ascii "page",
        ascii "request_params", ascii "search_time_ms"] ∧
    fieldDoc scenarioWorld scenarioParsed .FacetCounts = .null ∧
    fieldDoc scenarioWorld scenarioParsed .RequestParams = .null ∧
    ascii "facet_counts" ∉ JSON.memberNames scenarioDocument ∧
    ascii "facet_counts" ∈ JSON.memberNames (encodeResponse scenarioWorld scenarioParsed) ∧
    scenarioResponseBody ≠ scenarioBody ++ [byteOf '\n'] :=
  ⟨rfl, rfl, by decide, rfl, by decide, by decide, by decide, by decide, by decide, rfl, rfl,
    by decide, by decide, by decide⟩

end Visually
